import Mathlib

/- Verification of the OSMOS arena simulation engine.

   The definitions below are a shallow embedding of the physics engine found in
   the repository (the feature-complete engine variant: OptimizedGrid,
   runPhysicsTick, handleSplit, handleEject, plus the progression while-loop and
   the biome table).  JavaScript numbers are modelled as real numbers; float
   rounding is not modelled.  Mutation of the entities array is modelled by
   threading the list through folds, mirroring the source's in-place updates
   statement by statement.  Math.random() is modelled by an explicit stream
   (rng : Nat -> Real) threaded by consumption index exactly where the source
   draws randoms that influence simulation state; randoms used only to build id
   strings are not threaded (ids are modelled as fixed tags, which is faithful
   because ids only matter through equality with the literal "player").
   performance.now() and Date.now() are a parameter now : Real.  The source's
   UI-only statements (setLeaderboard, setUiPlayer, setGameState) do not touch
   the entity array; the data they consume (xpGain, playerMassSum) is returned
   in the tick result, and the progression while-loop inside setUiPlayer is
   modelled separately as settleXp. -/

namespace Osmos

noncomputable section

open scoped Classical

/- Constants from the source file. -/

def MAP_SIZE : ℝ := 8000

def GRID_CELL_SIZE : ℝ := 500

def PHYSICS_TPS : ℕ := 60

def MIN_SPLIT_MASS : ℝ := 35

def MAX_PLAYER_CELLS : ℕ := 16

def REABSORB_COOLDOWN : ℝ := 1200

def INITIAL_MASS : ℝ := 25

/-- Entity kinds, from the GameEntity type declaration. -/
inductive EType
  | player
  | ai
  | food
  | virus
  | ejected
  | hazard
deriving DecidableEq

/-- Cell classes, from the CellClass enum. -/
inductive CellClass
  | predator
  | tank
  | parasite
  | assassin
  | support
deriving DecidableEq

/-- Per-class stat multipliers, from the Stats interface. -/
structure Stats where
  speed : ℝ
  absorption : ℝ
  defense : ℝ
  regen : ℝ
  burst : ℝ

/-- CLASS_DATA baseStats from constants.tsx. -/
def classStats : CellClass → Stats
  | .predator => ⟨1.3, 1.6, 0.8, 1.0, 1.2⟩
  | .tank => ⟨0.8, 0.9, 2.2, 1.8, 0.5⟩
  | .parasite => ⟨1.5, 0.5, 0.6, 1.2, 1.5⟩
  | .assassin => ⟨1.7, 1.1, 0.5, 0.7, 2.2⟩
  | .support => ⟨1.2, 0.8, 1.3, 2.8, 0.8⟩

/-- The GameEntity record.  Optional JS fields are Option-valued: the source
distinguishes an absent mergeTimer from a zero one (undefined === 0 is false in
JS), so mergeTimer is Option Nat. -/
structure Entity where
  id : String
  ty : EType
  ownerId : Option String := none
  mergeTimer : Option ℕ := none
  spawnTime : Option ℝ := none
  vx : Option ℝ := none
  vy : Option ℝ := none
  x : ℝ
  y : ℝ
  radius : ℝ
  color : String := ""
  mass : ℝ
  cls : Option CellClass := none

instance : Inhabited Entity :=
  ⟨{ id := "", ty := .hazard, x := 0, y := 0, radius := 0, mass := 0 }⟩

/-- The check (e.ownerId === 'player' || e.id === 'player') used throughout the
source to recognise cells of the controlled actor. -/
def isPlayerEnt (e : Entity) : Bool :=
  e.ownerId = some "player" || e.id = "player"

/-- JS (expr || d) for a non-negative numeric expr: 0 is falsy and replaced
by the default. -/
def jsOr (x d : ℝ) : ℝ :=
  if x = 0 then d else x

/-- JS (r | 0): truncation toward zero (int32 wrap-around is irrelevant at the
coordinate scales of this program and is not modelled). -/
def jsTrunc (r : ℝ) : ℤ :=
  if 0 ≤ r then ⌊r⌋ else -⌊-r⌋

/-- Per-tick inputs of the engine: the steering vector (mouseRef), the clock
(performance.now()), whether gameState is 'playing', and the Math.random()
stream. -/
structure Env where
  mouseX : ℝ
  mouseY : ℝ
  now : ℝ
  playing : Bool
  rng : ℕ → ℝ

/-- e.class ? CLASS_DATA[e.class].baseStats : { speed: 1 }. -/
def entSpeedStat (e : Entity) : ℝ :=
  match e.cls with
  | some c => (classStats c).speed
  | none => 1

/-- baseSpeed = (stats.speed * 8.5) / (1 + Math.sqrt(e.mass) / 11). -/
def baseSpeed (e : Entity) : ℝ :=
  entSpeedStat e * 8.5 / (1 + Real.sqrt e.mass / 11)

/-- One iteration of the sibling soft-push loop inside the player branch of the
movement phase: the moving cell is threaded separately (the source mutates e in
place), the pushed sibling is written back into the array. -/
def siblingStep (i : ℕ) (p : Entity × List Entity) (j : ℕ) : Entity × List Entity :=
  let e := p.1
  let arr := p.2
  if i = j then p
  else
    let other := arr.getD j default
    if !(isPlayerEnt other) then p
    else if e.mergeTimer = some 0 ∧ other.mergeTimer = some 0 then p
    else
      let dxS := e.x - other.x
      let dyS := e.y - other.y
      let dist := jsOr (Real.sqrt (dxS * dxS + dyS * dyS)) 0.001
      let mn := e.radius + other.radius
      if dist < mn then
        let force := (mn - dist) * 0.15
        ({ e with x := e.x + dxS / dist * force, y := e.y + dyS / dist * force },
         arr.set j
           { other with
             x := other.x - dxS / dist * force, y := other.y - dyS / dist * force })
      else p

/-- The kind-specific movement of entity e (the branch ladder of the first
for-loop of runPhysicsTick): ejected mass drifts by its decaying launch
velocity; player cells drift by velocity, steer toward the mouse when it is
farther than 5, decrement their merge timer and soft-push overlapping siblings;
AI cells chase the first player cell at factor 0.7 when more than 1.25 times
its mass, otherwise flee at factor -1, only within distance 2200.  Returns the
moved entity and the (possibly sibling-pushed) array. -/
def moveBranch (env : Env) (pIdx : Option ℕ) (arr : List Entity) (i : ℕ) (e : Entity) :
    Entity × List Entity :=
  let bs := baseSpeed e
  if e.ty = .ejected then
    ({ e with
       x := e.x + e.vx.getD 0, y := e.y + e.vy.getD 0,
       vx := e.vx.map (fun v => v * 0.92), vy := e.vy.map (fun v => v * 0.92) }, arr)
  else if isPlayerEnt e then
    let dx := env.mouseX
    let dy := env.mouseY
    let d := jsOr (Real.sqrt (dx * dx + dy * dy)) 0.001
    let e2 : Entity :=
      { e with
        x := e.x + e.vx.getD 0, y := e.y + e.vy.getD 0,
        vx := e.vx.map (fun v => v * 0.85), vy := e.vy.map (fun v => v * 0.85) }
    let e3 := if d > 5 then { e2 with x := e2.x + dx / d * bs, y := e2.y + dy / d * bs } else e2
    let e4 : Entity :=
      { e3 with
        mergeTimer :=
          match e3.mergeTimer with
          | some (t + 1) => some t
          | mt => mt }
    (List.range arr.length).foldl (siblingStep i) (e4, arr)
  else if e.ty = .ai then
    match pIdx with
    | none => (e, arr)
    | some p =>
      let target := arr.getD p default
      let dist := jsOr (Real.sqrt ((target.x - e.x) ^ 2 + (target.y - e.y) ^ 2)) 0.001
      if dist < 2200 then
        let factor : ℝ := if e.mass > target.mass * 1.25 then 0.7 else -1
        ({ e with
           x := e.x + (target.x - e.x) / dist * bs * factor,
           y := e.y + (target.y - e.y) / dist * bs * factor }, arr)
      else (e, arr)
  else (e, arr)

/-- The movement step for entity index i: food and viruses are skipped
entirely; every other entity is moved by its branch, then clamped to the map,
gets radius = sqrt(mass) * 4 recomputed from the pre-decay mass, and decays
mass by factor 0.99999 — in the source statement order. -/
def moveStep (env : Env) (pIdx : Option ℕ) (arr : List Entity) (i : ℕ) : List Entity :=
  let e := arr.getD i default
  if e.ty = .food ∨ e.ty = .virus then arr
  else
    let step := moveBranch env pIdx arr i e
    let e6 : Entity :=
      { step.1 with
        x := max 0 (min MAP_SIZE step.1.x), y := max 0 (min MAP_SIZE step.1.y),
        radius := Real.sqrt step.1.mass * 4, mass := step.1.mass * 0.99999 }
    step.2.set i e6

/-- The whole movement loop of runPhysicsTick. -/
def movePhase (env : Env) (pIdx : Option ℕ) (s : List Entity) : List Entity :=
  (List.range s.length).foldl (moveStep env pIdx) s

/-- One entry of the OptimizedGrid: the clamped cell coordinates an entity index
was inserted under.  The Int32Array-backed grid is modelled as the insertion
sequence; per-cell contents and counts are recovered by filtering. -/
structure GridEntry where
  gx : ℤ
  gy : ℤ
  idx : ℕ

abbrev Grid := List GridEntry

/-- OptimizedGrid.insert: cell coordinates are truncated and clamped into
0..cols-1 (cols = ceil(8000 / 500) = 16); a cell accepts at most 1024 entries,
later ones are silently dropped. -/
def gridInsert (g : Grid) (x y : ℝ) (i : ℕ) : Grid :=
  let gx := max 0 (min 15 (jsTrunc (x / GRID_CELL_SIZE)))
  let gy := max 0 (min 15 (jsTrunc (y / GRID_CELL_SIZE)))
  if (g.filter fun en => en.gx = gx ∧ en.gy = gy).length < 1024 then g ++ [⟨gx, gy, i⟩]
  else g

/-- The grid rebuild after the movement loop: every entity index inserted at its
current position. -/
def buildGrid (arr : List Entity) : Grid :=
  (List.range arr.length).foldl
    (fun g i => gridInsert g (arr.getD i default).x (arr.getD i default).y i) []

/-- The integer range lo..hi as a list, for the grid's neighbourhood loops. -/
def intRangeList (lo hi : ℤ) : List ℤ :=
  (List.range (hi - lo + 1).toNat).map fun k => lo + (k : ℤ)

/-- OptimizedGrid.getNearby: unclamped cell of the query point, neighbourhood
half-width max(1, ceil(radius / 500)), bounds-checked cells concatenated in
loop order. -/
def getNearby (g : Grid) (x y radius : ℝ) : List ℕ :=
  let gx := jsTrunc (x / GRID_CELL_SIZE)
  let gy := jsTrunc (y / GRID_CELL_SIZE)
  let range := max 1 ⌈radius / GRID_CELL_SIZE⌉
  (intRangeList (-range) range).flatMap fun ox =>
    (intRangeList (-range) range).flatMap fun oy =>
      let nx := gx + ox
      let ny := gy + oy
      if 0 ≤ nx ∧ nx < 16 ∧ 0 ≤ ny ∧ ny < 16 then
        (g.filter fun en => en.gx = nx ∧ en.gy = ny).map fun en => en.idx
      else []

/-- Kinds of removal-producing interactions in the collision loop. -/
inductive EvKind
  | virusEat
  | burst
  | merge
  | absorb
deriving DecidableEq

/-- Ghost record of one interaction event of the collision loop: the indices,
the entities as they were when the interaction was evaluated, the mass credited
to the predator, and the predator's mass right after the credit (before any
virus split-reset). -/
structure AbsorbEvent where
  kind : EvKind
  pred : ℕ
  prey : ℕ
  predE : Entity
  preyE : Entity
  gain : ℝ
  predAfter : ℝ

/-- State threaded through the collision loop: the mutable entity array, the
deadSet (as the insertion list), the additions array, xpGain, playerMassSum,
the Math.random() consumption index, and the ghost event log. -/
structure CollState where
  arr : List Entity
  dead : List ℕ
  adds : List Entity
  xp : ℤ
  pms : ℝ
  rk : ℕ
  events : List AbsorbEvent

/-- One inner iteration of the collision loop, for predator index i and
candidate index j drawn from the grid query.  Mirrors the source branch for
branch: virus-eats-ejected (with the over-210 split-reset), the shrink-factor
contact test, player-bursts-on-virus, and the dominance-gated absorption with
its sibling-merge-timer gate and the fresh-ejected reabsorption cooldown. -/
def pairStep (env : Env) (i : ℕ) (st : CollState) (j : ℕ) : CollState :=
  if i = j ∨ j ∈ st.dead then st
  else
    let a := st.arr.getD i default
    let b := st.arr.getD j default
    let dxC := a.x - b.x
    let dyC := a.y - b.y
    let distSq := dxC * dxC + dyC * dyC
    if a.ty = .virus ∧ b.ty = .ejected then
      if distSq < (a.radius + b.radius) ^ 2 then
        let m1 := a.mass + b.mass
        let ev : AbsorbEvent := ⟨.virusEat, i, j, a, b, b.mass, m1⟩
        if m1 > 210 then
          let dist := jsOr (Real.sqrt distSq) 0.001
          let off : Entity :=
            { id := "v-new", ty := .virus, x := a.x - dxC / dist * 150,
              y := a.y - dyC / dist * 150, radius := 65, mass := 100, color := a.color }
          { st with
            arr := st.arr.set i { a with mass := 100 }, dead := st.dead ++ [j],
            adds := st.adds ++ [off], events := st.events ++ [ev] }
        else
          { st with
            arr := st.arr.set i { a with mass := m1 }, dead := st.dead ++ [j],
            events := st.events ++ [ev] }
      else st
    else if distSq < (a.radius * 0.94) ^ 2 then
      if b.ty = .virus ∧ a.mass > b.mass * 1.3 ∧ isPlayerEnt a then
        let fragments : ℤ := min 14 ⌊a.mass / 20⌋
        let fMass := a.mass / (fragments : ℝ)
        let frags :=
          (List.range (fragments - 1).toNat).map fun k =>
            let angle := env.rng (st.rk + k) * (2 * Real.pi)
            ({ id := "split-v", ty := .player, ownerId := some "player", x := a.x, y := a.y,
               vx := some (Real.cos angle * 14), vy := some (Real.sin angle * 14),
               radius := Real.sqrt fMass * 4, mass := fMass, color := a.color,
               mergeTimer := some (PHYSICS_TPS * 30) } : Entity)
        { st with
          arr := st.arr.set i { a with mass := fMass }, dead := st.dead ++ [j],
          adds := st.adds ++ frags, rk := st.rk + (fragments - 1).toNat,
          events := st.events ++ [⟨.burst, i, j, a, b, 0, fMass⟩] }
      else if a.mass > b.mass * 1.15 then
        if isPlayerEnt a ∧ isPlayerEnt b then
          if a.mergeTimer = some 0 ∧ b.mergeTimer = some 0 then
            { st with
              arr := st.arr.set i { a with mass := a.mass + b.mass },
              dead := st.dead ++ [j],
              events := st.events ++ [⟨.merge, i, j, a, b, b.mass, a.mass + b.mass⟩] }
          else st
        else if
            b.ty = .ejected ∧ b.ownerId = some "player" ∧ isPlayerEnt a ∧
              env.now - b.spawnTime.getD 0 < REABSORB_COOLDOWN then
          st
        else
          { st with
            arr := st.arr.set i { a with mass := a.mass + b.mass },
            dead := st.dead ++ [j],
            xp := st.xp + if isPlayerEnt a then ⌊b.mass * 2.5⌋ else 0,
            events := st.events ++ [⟨.absorb, i, j, a, b, b.mass, a.mass + b.mass⟩] }
      else st
    else st

/-- One outer iteration of the collision loop: already-dead predators are
skipped, player mass is accumulated, only player/ai/virus entities scan their
grid neighbourhood. -/
def collStep (env : Env) (g : Grid) (st : CollState) (i : ℕ) : CollState :=
  if i ∈ st.dead then st
  else
    let a := st.arr.getD i default
    let st1 := if isPlayerEnt a then { st with pms := st.pms + a.mass } else st
    if a.ty ≠ .player ∧ a.ty ≠ .ai ∧ a.ty ≠ .virus then st1
    else (getNearby g a.x a.y a.radius).foldl (pairStep env i) st1

/-- The whole collision loop of runPhysicsTick. -/
def collPhase (env : Env) (g : Grid) (arr : List Entity) : CollState :=
  (List.range arr.length).foldl (collStep env g) ⟨arr, [], [], 0, 0, 0, []⟩

/-- One iteration of the removal filter at the end of the tick: dead food is
kept but respawned at a fresh random position (consuming two randoms), other
dead entities are dropped (dead ejected mass is released to the pool, which
does not affect the entity list), survivors are kept as they are. -/
def removeStep (env : Env) (dead : List ℕ) (arr : List Entity) (p : List Entity × ℕ)
    (i : ℕ) : List Entity × ℕ :=
  let e := arr.getD i default
  if i ∈ dead then
    if e.ty = .food then
      (p.1 ++ [{ e with x := env.rng p.2 * MAP_SIZE, y := env.rng (p.2 + 1) * MAP_SIZE }],
       p.2 + 2)
    else p
  else (p.1 ++ [e], p.2)

/-- The whole removal filter; returns the surviving list and the rng
consumption index. -/
def removePhase (env : Env) (dead : List ℕ) (rk0 : ℕ) (arr : List Entity) :
    List Entity × ℕ :=
  (List.range arr.length).foldl (removeStep env dead arr) ([], rk0)

/-- The observable result of one physics tick. -/
structure TickResult where
  entities : List Entity
  events : List AbsorbEvent
  dead : List ℕ
  adds : List Entity
  xpGain : ℤ
  playerMassSum : ℝ

/-- runPhysicsTick: the early-out when the controlled actor has no cells while
playing, then movement, grid rebuild, collisions, and the removal/additions
commit (the entity array is rebuilt only when something died or spawned). -/
def runPhysicsTick (env : Env) (s : List Entity) : TickResult :=
  let playerCells := s.filter fun e => isPlayerEnt e
  if playerCells.isEmpty ∧ env.playing then ⟨s, [], [], [], 0, 0⟩
  else
    let pIdx := s.findIdx? fun e => isPlayerEnt e
    let m := movePhase env pIdx s
    let g := buildGrid m
    let c := collPhase env g m
    let ents :=
      if c.dead ≠ [] ∨ c.adds ≠ [] then (removePhase env c.dead c.rk c.arr).1 ++ c.adds
      else c.arr
    ⟨ents, c.events, c.dead, c.adds, c.xp, c.pms⟩

/-- Iterated ticks: tick k runs under environment envs k. -/
def tickIter (envs : ℕ → Env) : ℕ → List Entity → List Entity
  | 0, s => s
  | n + 1, s => (runPhysicsTick (envs n) (tickIter envs n s)).entities

/-- Ghost record of one performed split: the cell index and its mass before
halving. -/
structure SplitRec where
  idx : ℕ
  oldMass : ℝ

instance : Inhabited SplitRec :=
  ⟨⟨0, 0⟩⟩

/-- The new cell emitted by one performed split: spawned beside the parent
toward the mouse, launched at speed 16, carrying the half mass and a fresh
merge-protection timer. -/
def splitNewCell (env : Env) (cell : Entity) (halfMass r1 : ℝ) : Entity :=
  let d := jsOr (Real.sqrt (env.mouseX * env.mouseX + env.mouseY * env.mouseY)) 0.001
  { id := "p-split", ty := .player, ownerId := some "player",
    x := cell.x + env.mouseX / d * (r1 * 0.8),
    y := cell.y + env.mouseY / d * (r1 * 0.8),
    vx := some (env.mouseX / d * 16), vy := some (env.mouseY / d * 16),
    radius := r1, mass := halfMass, color := cell.color, cls := cell.cls,
    mergeTimer := some (PHYSICS_TPS * 30), spawnTime := some env.now }

/-- One performed split inside the handleSplit forEach: the cell is halved, its
radius refreshed and merge protection reset, and a new cell with the same half
mass is launched toward the mouse, while the split budget decrements.  A cell
reached with an exhausted budget is skipped.  The state is (entities, new
cells, remaining budget, ghost list of performed splits). -/
def splitStep (env : Env) (q : List Entity × List Entity × ℤ × List SplitRec) (i : ℕ) :
    List Entity × List Entity × ℤ × List SplitRec :=
  if q.2.2.1 ≤ 0 then q
  else
    let cell := q.1.getD i default
    let halfMass := cell.mass / 2
    let r1 := Real.sqrt halfMass * 4
    let cell1 : Entity :=
      { cell with mass := halfMass, radius := r1, mergeTimer := some (PHYSICS_TPS * 30) }
    (q.1.set i cell1, q.2.1 ++ [splitNewCell env cell halfMass r1], q.2.2.1 - 1,
     q.2.2.2 ++ [⟨i, cell.mass⟩])

/-- handleSplit: eligibility (player-owned, mass at least MIN_SPLIT_MASS) is
decided on the pre-call masses; the number of splits is capped by
MAX_PLAYER_CELLS minus the current player cell count. -/
def handleSplit (env : Env) (s : List Entity) : List Entity × List SplitRec :=
  let pCount := (s.filter fun e => isPlayerEnt e).length
  let eligible :=
    (List.range s.length).filter fun i =>
      isPlayerEnt (s.getD i default) && decide (MIN_SPLIT_MASS ≤ (s.getD i default).mass)
  if eligible.isEmpty then (s, [])
  else
    let avail0 : ℤ := (MAX_PLAYER_CELLS : ℤ) - (pCount : ℤ)
    if avail0 ≤ 0 then (s, [])
    else
      let res := eligible.foldl (splitStep env) (s, [], avail0, [])
      (res.1 ++ res.2.1, res.2.2.2)

/-- handleEject: every player-owned cell above mass 40 loses a fixed 14 mass,
refreshes its radius, and emits an ejected-mass entity (mass 14, radius 10,
launch velocity 13 toward the mouse, spawnTime stamped).  The GameEntity record
carries no time-to-live field of any kind. -/
def handleEject (env : Env) (s : List Entity) : List Entity :=
  let eligible :=
    (List.range s.length).filter fun i =>
      isPlayerEnt (s.getD i default) && decide ((40 : ℝ) < (s.getD i default).mass)
  let res :=
    eligible.foldl
      (fun (q : List Entity × List Entity) i =>
        let cell := q.1.getD i default
        let m1 := cell.mass - 14
        let r1 := Real.sqrt m1 * 4
        let cell1 : Entity := { cell with mass := m1, radius := r1 }
        let d := jsOr (Real.sqrt (env.mouseX * env.mouseX + env.mouseY * env.mouseY)) 0.001
        let ej : Entity :=
          { id := "ej", ty := .ejected, ownerId := some "player",
            x := cell.x + env.mouseX / d * (r1 + 10),
            y := cell.y + env.mouseY / d * (r1 + 10),
            vx := some (env.mouseX / d * 13), vy := some (env.mouseY / d * 13),
            radius := 10, mass := 14, color := cell.color, spawnTime := some env.now }
        (q.1.set i cell1, q.2 ++ [ej]))
      (s, [])
  res.1 ++ res.2

/-- The progression while-loop executed inside setUiPlayer:
while (nExp >= nMax) { nExp -= nMax; nLvl++; nMax = Math.floor(nMax * 1.5); }.
Experience, level and threshold are integer-valued throughout the program
(initially 0 / 1 / 100, gains are Math.floor results), so the loop is modelled
on naturals; Math.floor(t * 1.5) is t * 3 / 2 in natural division.  The source
loop would not terminate on a zero threshold (unreachable there: the threshold
starts at 100); the model returns the state unchanged in that case and every
theorem assumes a positive threshold. -/
def settleXp (exp lvl thr : ℕ) : ℕ × ℕ × ℕ :=
  if h : 0 < thr ∧ thr ≤ exp then settleXp (exp - thr) (lvl + 1) (thr * 3 / 2)
  else (exp, lvl, thr)
termination_by exp
decreasing_by
  omega

/-- A biome zone rectangle, from the biomes table of the source. -/
structure Biome where
  name : String
  x : ℝ
  y : ℝ
  w : ℝ
  h : ℝ

/-- The three biome zones defined in the source (Toxic Mire, Magma Core,
Energy Nexus).  They are passed only to the canvas and minimap renderers. -/
def biomes : List Biome :=
  [⟨"Toxic Mire", 500, 500, 2500, 2500⟩, ⟨"Magma Core", 5000, 5000, 2500, 2500⟩,
   ⟨"Energy Nexus", 3000, 1000, 2000, 2000⟩]

/-- Modelled from the spec: the center-inside-rectangle test for biome
membership ("while an entity's center lies inside them").  The physics tick of
the source contains no such test; this predicate only serves to state where an
entity sits relative to a biome. -/
def inBiome (b : Biome) (e : Entity) : Prop :=
  b.x ≤ e.x ∧ e.x ≤ b.x + b.w ∧ b.y ≤ e.y ∧ e.y ≤ b.y + b.h

/-- Number of food entities in a state. -/
def foodCount (s : List Entity) : ℕ :=
  (s.filter fun e => e.ty = EType.food).length

/-- Number of cells of the controlled actor in a state. -/
def playerCount (s : List Entity) : ℕ :=
  (s.filter fun e => isPlayerEnt e).length

/-- A position inside the world bounds. -/
def inBounds (e : Entity) : Prop :=
  0 ≤ e.x ∧ e.x ≤ MAP_SIZE ∧ 0 ≤ e.y ∧ e.y ≤ MAP_SIZE

/-- Invariants that every state reachable by the game maintains: masses are
positive; viruses (seeded and respawned at mass 100, never decayed) keep mass
at least 100 and are never player-owned; ejected mass is spawned at mass 14 and
only decays.  Food, viruses and AI cells never carry the player owner tag. -/
def WellFormed (s : List Entity) : Prop :=
  ∀ e ∈ s,
    0 < e.mass ∧ (e.ty = .virus → 100 ≤ e.mass ∧ isPlayerEnt e = false) ∧
      (e.ty = .ejected → e.mass ≤ 14) ∧
      (e.ty = .food ∨ e.ty = .virus ∨ e.ty = .ai → isPlayerEnt e = false)

/- Field-wise difference relations between entity values, used to track which
fields an engine phase can touch. -/

/-- Equality of every field except the position x, y. -/
def exceptPos (e r : Entity) : Prop :=
  e.id = r.id ∧ e.ty = r.ty ∧ e.ownerId = r.ownerId ∧ e.mergeTimer = r.mergeTimer ∧
    e.spawnTime = r.spawnTime ∧ e.vx = r.vx ∧ e.vy = r.vy ∧ e.radius = r.radius ∧
    e.color = r.color ∧ e.mass = r.mass ∧ e.cls = r.cls

/-- Equality of every field except the mass. -/
def exceptMass (e r : Entity) : Prop :=
  e.id = r.id ∧ e.ty = r.ty ∧ e.ownerId = r.ownerId ∧ e.mergeTimer = r.mergeTimer ∧
    e.spawnTime = r.spawnTime ∧ e.vx = r.vx ∧ e.vy = r.vy ∧ e.x = r.x ∧ e.y = r.y ∧
    e.radius = r.radius ∧ e.color = r.color ∧ e.cls = r.cls

/-- Equality of the identity-like fields that no engine phase ever rewrites. -/
def identEq (e r : Entity) : Prop :=
  e.id = r.id ∧ e.ty = r.ty ∧ e.ownerId = r.ownerId ∧ e.spawnTime = r.spawnTime ∧
    e.color = r.color ∧ e.cls = r.cls

/-- What the movement loop guarantees for an entity once its own iteration has
run: identity fields intact; food and viruses keep mass and radius untouched;
every other kind has its radius recomputed from the pre-decay mass and its mass
decayed. -/
def moveDone (src r : Entity) : Prop :=
  identEq src r ∧
    ((src.ty = .food ∨ src.ty = .virus) → r.mass = src.mass ∧ r.radius = src.radius) ∧
    (¬(src.ty = .food ∨ src.ty = .virus) →
      r.mass = src.mass * 0.99999 ∧ r.radius = Real.sqrt src.mass * 4)

/-- The first k iterations of the movement loop. -/
def mproc (env : Env) (pIdx : Option ℕ) (s : List Entity) (k : ℕ) : List Entity :=
  (List.range k).foldl (moveStep env pIdx) s

/-- The exhaustive description of one inner collision iteration that does act:
which entity array write, removal, additions and event it produces, and the
branch conditions under which each event kind arises. -/
def PairOutcome (i j : ℕ) (st st' : CollState) : Prop :=
  ∃ (kind : EvKind) (gain mnew pAfter : ℝ) (addsNew : List Entity) (xpNew : ℤ) (rkNew : ℕ),
    ¬(i = j ∨ j ∈ st.dead) ∧
    st' =
      { arr := st.arr.set i { st.arr.getD i default with mass := mnew },
        dead := st.dead ++ [j], adds := addsNew, xp := xpNew,
        pms := st.pms, rk := rkNew,
        events :=
          st.events ++
            [⟨kind, i, j, st.arr.getD i default, st.arr.getD j default, gain, pAfter⟩] } ∧
    (∀ e ∈ addsNew, e ∈ st.adds ∨ e.ty = .virus ∨ e.ty = .player) ∧
    (kind = .virusEat →
      (st.arr.getD i default).ty = .virus ∧ (st.arr.getD j default).ty = .ejected ∧
        gain = (st.arr.getD j default).mass ∧
        pAfter = (st.arr.getD i default).mass + (st.arr.getD j default).mass ∧
        (mnew = (st.arr.getD i default).mass + (st.arr.getD j default).mass ∨ mnew = 100)) ∧
    (kind = .burst →
      (st.arr.getD j default).ty = .virus ∧
        (st.arr.getD i default).mass > (st.arr.getD j default).mass * 1.3 ∧
        isPlayerEnt (st.arr.getD i default) = true ∧ gain = 0 ∧
        mnew =
          (st.arr.getD i default).mass /
            ((min 14 ⌊(st.arr.getD i default).mass / 20⌋ : ℤ) : ℝ) ∧
        pAfter = mnew) ∧
    (kind = .merge →
      isPlayerEnt (st.arr.getD i default) = true ∧
        isPlayerEnt (st.arr.getD j default) = true ∧
        (st.arr.getD i default).mergeTimer = some 0 ∧
        (st.arr.getD j default).mergeTimer = some 0 ∧
        (st.arr.getD i default).mass > (st.arr.getD j default).mass * 1.15 ∧
        gain = (st.arr.getD j default).mass ∧
        mnew = (st.arr.getD i default).mass + (st.arr.getD j default).mass ∧ pAfter = mnew) ∧
    (kind = .absorb →
      (st.arr.getD i default).mass > (st.arr.getD j default).mass * 1.15 ∧
        ¬(isPlayerEnt (st.arr.getD i default) = true ∧
           isPlayerEnt (st.arr.getD j default) = true) ∧
        gain = (st.arr.getD j default).mass ∧
        mnew = (st.arr.getD i default).mass + (st.arr.getD j default).mass ∧ pAfter = mnew)

/-- The facts about the post-movement array that the collision loop relies on,
implied by WellFormed input states. -/
def MInv (m : List Entity) : Prop :=
  ∀ k, k < m.length →
    0 < (m.getD k default).mass ∧
      ((m.getD k default).ty = .virus →
        100 ≤ (m.getD k default).mass ∧ isPlayerEnt (m.getD k default) = false) ∧
      ((m.getD k default).ty = .ejected → (m.getD k default).mass ≤ 14)

/-- Per-event guarantees of the collision loop, on the entity snapshots stored
in the event: non-burst events credit exactly the prey's current mass to the
predator; the prey's mass is positive; the predator strictly dominates the
prey by the ratio 1.15 at the moment of the check; and an event between two
player-owned cells can only be a merge, with both merge timers exactly zero. -/
def EvOk (ev : AbsorbEvent) : Prop :=
  (ev.kind ≠ .burst → ev.gain = ev.preyE.mass ∧ ev.predAfter = ev.predE.mass + ev.gain) ∧
    0 < ev.preyE.mass ∧ ev.predE.mass > ev.preyE.mass * 1.15 ∧
    (isPlayerEnt ev.predE = true ∧ isPlayerEnt ev.preyE = true →
      ev.kind = .merge ∧ ev.predE.mergeTimer = some 0 ∧ ev.preyE.mergeTimer = some 0)

/-- The invariant carried through the collision loop, relative to the
post-movement array m. -/
def CollInv (m : List Entity) (st : CollState) : Prop :=
  st.arr.length = m.length ∧
    (∀ k, exceptMass (m.getD k default) (st.arr.getD k default)) ∧
    (∀ k, k < m.length → 0 < (st.arr.getD k default).mass) ∧
    (∀ k, (m.getD k default).ty = .virus → 100 ≤ (st.arr.getD k default).mass) ∧
    (∀ k, (m.getD k default).ty = .ejected →
      (st.arr.getD k default).mass = (m.getD k default).mass) ∧
    (∀ ev ∈ st.events, EvOk ev) ∧
    (st.events.map fun ev => ev.prey).Nodup ∧
    (∀ ev ∈ st.events, ev.prey ∈ st.dead ∧ ev.prey < m.length ∧ ev.pred < m.length) ∧
    (∀ e ∈ st.adds, e.ty = .virus ∨ e.ty = .player)

/-- The collision state computed by a tick that did not take the early out. -/
def tickColl (env : Env) (s : List Entity) : CollState :=
  collPhase env (buildGrid (movePhase env (s.findIdx? fun e => isPlayerEnt e) s))
    (movePhase env (s.findIdx? fun e => isPlayerEnt e) s)

/-- Invariant of the handleSplit forEach fold, relative to the pre-call
entities s and the initial split budget avail0: array length and player
ownership are stable; every new cell is player-owned; new cells and split
records run in parallel; the budget counts down with the records; and each
record points at a cell whose mass is now half its recorded old mass, with a
new cell of the same half mass at the matching position. -/
def SplitInv (s : List Entity) (avail0 : ℤ)
    (q : List Entity × List Entity × ℤ × List SplitRec) : Prop :=
  q.1.length = s.length ∧
    (∀ k, k < s.length → isPlayerEnt (q.1.getD k default) = isPlayerEnt (s.getD k default)) ∧
    (∀ e ∈ q.2.1, isPlayerEnt e = true) ∧
    q.2.1.length = q.2.2.2.length ∧
    q.2.2.1 = avail0 - (q.2.2.2.length : ℤ) ∧ 0 ≤ q.2.2.1 ∧
    (∀ k, k < q.2.2.2.length →
      (q.2.2.2.getD k default).idx < s.length ∧
        (q.1.getD (q.2.2.2.getD k default).idx default).mass =
          (q.2.2.2.getD k default).oldMass / 2 ∧
        (q.2.1.getD k default).mass = (q.2.2.2.getD k default).oldMass / 2)

/- Concrete worlds used to instantiate the theorems. -/

/-- A neutral environment: mouse at the origin, clock at zero, menu state (not
playing), and a constant-zero random stream. -/
def env0 : Env :=
  ⟨0, 0, 0, false, fun _ => 0⟩

/-- A controlled-actor cell. -/
def entP : Entity :=
  { id := "player", ty := .player, x := 100, y := 100, radius := 40, mass := 100 }

/-- A food pellet as the world seeds them: mass 1, radius 3. -/
def entF : Entity :=
  { id := "f1", ty := .food, x := 4000, y := 4000, radius := 3, mass := 1 }

/-- A small well-formed world: one player cell and one food pellet. -/
def W1 : List Entity :=
  [entP, entF]

/-- A world holding a single food pellet. -/
def W4 : List Entity :=
  [entF]

/-- An AI cell sitting inside the Toxic Mire biome rectangle. -/
def aiIn : Entity :=
  { id := "a1", ty := .ai, x := 600, y := 600, radius := 28, mass := 50 }

/-- An AI cell of the same mass sitting outside every biome rectangle. -/
def aiOut : Entity :=
  { id := "a2", ty := .ai, x := 7900, y := 400, radius := 28, mass := 50 }

/-- Two AI cells of equal mass, one inside a biome and one outside. -/
def W6 : List Entity :=
  [aiIn, aiOut]

/-- A free-floating ejected-mass pellet with no remaining launch velocity. -/
def ejW : Entity :=
  { id := "ej", ty := .ejected, x := 4000, y := 4000, radius := 12, mass := 10 }

/-- A player cell resting against the left world border. -/
def c0 : Entity :=
  { id := "player", ty := .player, ownerId := some "player", x := 0, y := 100,
    radius := 40, mass := 100 }

/-- A sibling player cell overlapping the first from the right. -/
def c1 : Entity :=
  { id := "p2", ty := .player, ownerId := some "player", x := 10, y := 100,
    radius := 40, mass := 100 }

/-- Two overlapping sibling player cells at the left world border. -/
def W5 : List Entity :=
  [c0, c1]

/-- The border cell after its own movement iteration: clamped back to x = 0,
radius refreshed, mass decayed, and the sibling pushed to x = 20.5. -/
def c0d : Entity :=
  { id := "player", ty := .player, ownerId := some "player", x := 0, y := 100,
    radius := 40, mass := 99.999 }

/-- The sibling cell after being soft-pushed by the border cell. -/
def c1m : Entity :=
  { id := "p2", ty := .player, ownerId := some "player", x := 20.5, y := 100,
    radius := 40, mass := 100 }

/-- The border cell after the sibling's own iteration pushes it back out: its
position x = -8.925 is outside the world and is never re-clamped. -/
def c0f : Entity :=
  { id := "player", ty := .player, ownerId := some "player", x := -8.925, y := 100,
    radius := 40, mass := 99.999 }

/-- The sibling cell at the end of the movement loop. -/
def c1f : Entity :=
  { id := "p2", ty := .player, ownerId := some "player", x := 29.425, y := 100,
    radius := 40, mass := 99.999 }

/-- A controlled-actor cell of the Predator class (absorption stat 1.6). -/
def entA : Entity :=
  { id := "player", ty := .player, ownerId := some "player", x := 0, y := 0,
    radius := 40, mass := 100, cls := some CellClass.predator }

/-- An AI cell overlapping the predator-class player cell. -/
def entB : Entity :=
  { id := "b", ty := .ai, x := 0, y := 0, radius := 12, mass := 10 }

/-- The collision-loop state holding the predator-class player over the AI. -/
def stC : CollState :=
  ⟨[entA, entB], [], [], 0, 0, 0, []⟩

/- General fold helpers. -/

theorem foldl_inv {α β : Type _} (f : β → α → β) (P : β → Prop) :
    ∀ (l : List α) (init : β), P init → (∀ b a, a ∈ l → P b → P (f b a)) →
      P (l.foldl f init) := by
  intro l
  induction l with
  | nil => intro init h _; exact h
  | cons a t ih =>
    intro init h hstep
    exact ih (f init a) (hstep init a (List.mem_cons_self a t) h)
      fun b x hx hb => hstep b x (List.mem_cons_of_mem a hx) hb

theorem range_foldl_succ {β : Type _} (f : β → ℕ → β) (n : ℕ) (init : β) :
    (List.range (n + 1)).foldl f init = f ((List.range n).foldl f init) n := by
  rw [List.range_succ, List.foldl_append]
  rfl

theorem getD_set_self (l : List Entity) (i : ℕ) (v : Entity) (h : i < l.length) :
    (l.set i v).getD i default = v := by
  simp [List.getD, List.getElem?_set_self, h]

theorem getD_set_ne (l : List Entity) (i j : ℕ) (v : Entity) (h : j ≠ i) :
    (l.set i v).getD j default = l.getD j default := by
  simp [List.getD, List.getElem?_set_ne fun hh => h hh.symm]

theorem exceptPos_refl (e : Entity) : exceptPos e e := by
  simp [exceptPos]

theorem exceptPos_trans {a b c : Entity} (h1 : exceptPos a b) (h2 : exceptPos b c) :
    exceptPos a c := by
  obtain ⟨h1a, h1b, h1c, h1d, h1e, h1f, h1g, h1h, h1i, h1j, h1k⟩ := h1
  obtain ⟨h2a, h2b, h2c, h2d, h2e, h2f, h2g, h2h, h2i, h2j, h2k⟩ := h2
  exact ⟨h1a.trans h2a, h1b.trans h2b, h1c.trans h2c, h1d.trans h2d, h1e.trans h2e,
    h1f.trans h2f, h1g.trans h2g, h1h.trans h2h, h1i.trans h2i, h1j.trans h2j, h1k.trans h2k⟩

theorem exceptPos_update (e : Entity) (a b : ℝ) : exceptPos e { e with x := a, y := b } := by
  simp [exceptPos]

theorem exceptPos_identEq {e r : Entity} (h : exceptPos e r) : identEq e r :=
  ⟨h.1, h.2.1, h.2.2.1, h.2.2.2.2.1, h.2.2.2.2.2.2.2.2.1, h.2.2.2.2.2.2.2.2.2.2⟩

theorem exceptPos_isPlayer {e r : Entity} (h : exceptPos e r) :
    isPlayerEnt e = isPlayerEnt r := by
  simp [isPlayerEnt, h.1, h.2.2.1]

theorem exceptMass_refl (e : Entity) : exceptMass e e := by
  simp [exceptMass]

theorem exceptMass_trans {a b c : Entity} (h1 : exceptMass a b) (h2 : exceptMass b c) :
    exceptMass a c := by
  obtain ⟨h1a, h1b, h1c, h1d, h1e, h1f, h1g, h1h, h1i, h1j, h1k, h1l⟩ := h1
  obtain ⟨h2a, h2b, h2c, h2d, h2e, h2f, h2g, h2h, h2i, h2j, h2k, h2l⟩ := h2
  exact ⟨h1a.trans h2a, h1b.trans h2b, h1c.trans h2c, h1d.trans h2d, h1e.trans h2e,
    h1f.trans h2f, h1g.trans h2g, h1h.trans h2h, h1i.trans h2i, h1j.trans h2j,
    h1k.trans h2k, h1l.trans h2l⟩

theorem exceptMass_update (e : Entity) (m : ℝ) : exceptMass e { e with mass := m } := by
  simp [exceptMass]

theorem exceptMass_isPlayer {e r : Entity} (h : exceptMass e r) :
    isPlayerEnt e = isPlayerEnt r := by
  simp [isPlayerEnt, h.1, h.2.2.1]

theorem identEq_refl (e : Entity) : identEq e e := by
  simp [identEq]

theorem identEq_trans {a b c : Entity} (h1 : identEq a b) (h2 : identEq b c) :
    identEq a c :=
  ⟨h1.1.trans h2.1, h1.2.1.trans h2.2.1, h1.2.2.1.trans h2.2.2.1,
    h1.2.2.2.1.trans h2.2.2.2.1, h1.2.2.2.2.1.trans h2.2.2.2.2.1,
    h1.2.2.2.2.2.trans h2.2.2.2.2.2⟩

theorem identEq_isPlayer {e r : Entity} (h : identEq e r) :
    isPlayerEnt e = isPlayerEnt r := by
  simp [isPlayerEnt, h.1, h.2.2.1]

/- Effect of the sibling soft-push loop. -/

theorem siblingStep_snd_len (i : ℕ) (p : Entity × List Entity) (j : ℕ) :
    ((siblingStep i p j).2).length = p.2.length := by
  simp only [siblingStep]
  split
  · rfl
  · split
    · rfl
    · split
      · rfl
      · split
        · simp [List.length_set]
        · rfl

theorem siblingStep_snd_exceptPos (i : ℕ) (p : Entity × List Entity) (j k : ℕ) :
    exceptPos (p.2.getD k default) ((siblingStep i p j).2.getD k default) := by
  simp only [siblingStep]
  split
  · exact exceptPos_refl _
  · split
    · exact exceptPos_refl _
    · split
      · exact exceptPos_refl _
      · split
        · by_cases hk : k = j
          · subst hk
            by_cases hl : k < p.2.length
            · rw [getD_set_self _ _ _ hl]
              exact exceptPos_update _ _ _
            · rw [List.set_eq_of_length_le (Nat.le_of_not_lt hl)]
              exact exceptPos_refl _
          · rw [getD_set_ne _ _ _ _ hk]
            exact exceptPos_refl _
        · exact exceptPos_refl _

theorem siblingStep_fst_exceptPos (i : ℕ) (p : Entity × List Entity) (j : ℕ) :
    exceptPos p.1 ((siblingStep i p j).1) := by
  simp only [siblingStep]
  split
  · exact exceptPos_refl _
  · split
    · exact exceptPos_refl _
    · split
      · exact exceptPos_refl _
      · split
        · exact exceptPos_update _ _ _
        · exact exceptPos_refl _

theorem siblingStep_fixed_nonplayer (i : ℕ) (p : Entity × List Entity) (j k : ℕ)
    (hk : isPlayerEnt (p.2.getD k default) = false) :
    (siblingStep i p j).2.getD k default = p.2.getD k default := by
  simp only [siblingStep]
  split
  · rfl
  · by_cases hkj : k = j
    · subst hkj
      simp only [List.getD, List.get?_eq_getElem?] at hk
      simp [hk]
    · split
      · rfl
      · split
        · rfl
        · split
          · rw [getD_set_ne _ _ _ _ hkj]
          · rfl

theorem sibFold_snd_len (i : ℕ) (e : Entity) (arr : List Entity) (l : List ℕ) :
    ((l.foldl (siblingStep i) (e, arr)).2).length = arr.length := by
  refine foldl_inv (siblingStep i) (fun q => q.2.length = arr.length) l (e, arr) rfl ?_
  intro b a _ hb
  rw [siblingStep_snd_len, hb]

theorem sibFold_snd_exceptPos (i : ℕ) (e : Entity) (arr : List Entity) (l : List ℕ) (k : ℕ) :
    exceptPos (arr.getD k default) ((l.foldl (siblingStep i) (e, arr)).2.getD k default) := by
  refine foldl_inv (siblingStep i)
    (fun q => exceptPos (arr.getD k default) (q.2.getD k default)) l (e, arr)
    (exceptPos_refl _) ?_
  intro b a _ hb
  exact exceptPos_trans hb (siblingStep_snd_exceptPos i b a k)

theorem sibFold_fst_exceptPos (i : ℕ) (e : Entity) (arr : List Entity) (l : List ℕ) :
    exceptPos e ((l.foldl (siblingStep i) (e, arr)).1) := by
  refine foldl_inv (siblingStep i) (fun q => exceptPos e q.1) l (e, arr)
    (exceptPos_refl _) ?_
  intro b a _ hb
  exact exceptPos_trans hb (siblingStep_fst_exceptPos i b a)

theorem sibFold_fixed_nonplayer (i : ℕ) (e : Entity) (arr : List Entity) (l : List ℕ) (k : ℕ)
    (hk : isPlayerEnt (arr.getD k default) = false) :
    (l.foldl (siblingStep i) (e, arr)).2.getD k default = arr.getD k default := by
  refine foldl_inv (siblingStep i) (fun q => q.2.getD k default = arr.getD k default) l
    (e, arr) rfl ?_
  intro b a _ hb
  rw [siblingStep_fixed_nonplayer i b a k (by rw [hb]; exact hk), hb]

/- Effect of the kind-specific movement branch. -/

theorem moveBranch_snd_len (env : Env) (pIdx : Option ℕ) (arr : List Entity) (i : ℕ)
    (e : Entity) : ((moveBranch env pIdx arr i e).2).length = arr.length := by
  simp only [moveBranch]
  split
  · rfl
  · split
    · exact sibFold_snd_len _ _ _ _
    · split
      · split
        · rfl
        · split
          · rfl
          · rfl
      · rfl

theorem moveBranch_snd_exceptPos (env : Env) (pIdx : Option ℕ) (arr : List Entity) (i : ℕ)
    (e : Entity) (k : ℕ) :
    exceptPos (arr.getD k default) ((moveBranch env pIdx arr i e).2.getD k default) := by
  simp only [moveBranch]
  split
  · exact exceptPos_refl _
  · split
    · exact sibFold_snd_exceptPos _ _ _ _ _
    · split
      · split
        · exact exceptPos_refl _
        · split
          · exact exceptPos_refl _
          · exact exceptPos_refl _
      · exact exceptPos_refl _

theorem moveBranch_snd_fixed_nonplayer (env : Env) (pIdx : Option ℕ) (arr : List Entity)
    (i : ℕ) (e : Entity) (k : ℕ) (hk : isPlayerEnt (arr.getD k default) = false) :
    (moveBranch env pIdx arr i e).2.getD k default = arr.getD k default := by
  simp only [moveBranch]
  split
  · rfl
  · split
    · exact sibFold_fixed_nonplayer _ _ _ _ _ hk
    · split
      · split
        · rfl
        · split
          · rfl
          · rfl
      · rfl

theorem moveBranch_fst (env : Env) (pIdx : Option ℕ) (arr : List Entity) (i : ℕ)
    (e : Entity) :
    identEq e ((moveBranch env pIdx arr i e).1) ∧
      ((moveBranch env pIdx arr i e).1).mass = e.mass := by
  simp only [moveBranch]
  split
  · exact ⟨by simp [identEq], rfl⟩
  · split
    · have h4 :
          ∀ e4 : Entity,
            identEq e e4 → e4.mass = e.mass →
              identEq e (((List.range arr.length).foldl (siblingStep i) (e4, arr)).1) ∧
                (((List.range arr.length).foldl (siblingStep i) (e4, arr)).1).mass = e.mass := by
        intro e4 hid hm
        have hf := sibFold_fst_exceptPos i e4 arr (List.range arr.length)
        exact ⟨identEq_trans hid (exceptPos_identEq hf),
          by rw [← hf.2.2.2.2.2.2.2.2.2.1, hm]⟩
      split
      · exact h4 _ (by simp [identEq]) rfl
      · exact h4 _ (by simp [identEq]) rfl
    · split
      · split
        · exact ⟨identEq_refl _, rfl⟩
        · split
          · exact ⟨by simp [identEq], rfl⟩
          · exact ⟨identEq_refl _, rfl⟩
      · exact ⟨identEq_refl _, rfl⟩

/- Effect of one movement-loop iteration. -/

theorem moveStep_length (env : Env) (pIdx : Option ℕ) (arr : List Entity) (i : ℕ) :
    (moveStep env pIdx arr i).length = arr.length := by
  simp only [moveStep]
  split
  · rfl
  · rw [List.length_set, moveBranch_snd_len]

theorem moveStep_skip (env : Env) (pIdx : Option ℕ) (arr : List Entity) (i : ℕ)
    (h : (arr.getD i default).ty = .food ∨ (arr.getD i default).ty = .virus) :
    moveStep env pIdx arr i = arr := by
  rcases h with h | h <;>
    (simp only [List.getD, List.get?_eq_getElem?] at h; simp [moveStep, List.getD, h])

theorem moveStep_getD_ne (env : Env) (pIdx : Option ℕ) (arr : List Entity) (i k : ℕ)
    (h : k ≠ i) :
    exceptPos (arr.getD k default) ((moveStep env pIdx arr i).getD k default) := by
  simp only [moveStep]
  split
  · exact exceptPos_refl _
  · rw [getD_set_ne _ _ _ _ h]
    exact moveBranch_snd_exceptPos _ _ _ _ _ _

theorem moveStep_fixed_nonplayer (env : Env) (pIdx : Option ℕ) (arr : List Entity) (i k : ℕ)
    (h : k ≠ i) (hk : isPlayerEnt (arr.getD k default) = false) :
    (moveStep env pIdx arr i).getD k default = arr.getD k default := by
  simp only [moveStep]
  split
  · rfl
  · rw [getD_set_ne _ _ _ _ h]
    exact moveBranch_snd_fixed_nonplayer _ _ _ _ _ _ hk

theorem moveStep_self (env : Env) (pIdx : Option ℕ) (arr : List Entity) (i : ℕ)
    (hi : i < arr.length)
    (hty : ¬((arr.getD i default).ty = .food ∨ (arr.getD i default).ty = .virus)) :
    identEq (arr.getD i default) ((moveStep env pIdx arr i).getD i default) ∧
      ((moveStep env pIdx arr i).getD i default).mass = (arr.getD i default).mass * 0.99999 ∧
      ((moveStep env pIdx arr i).getD i default).radius =
        Real.sqrt (arr.getD i default).mass * 4 ∧
      0 ≤ ((moveStep env pIdx arr i).getD i default).x ∧
      ((moveStep env pIdx arr i).getD i default).x ≤ MAP_SIZE ∧
      0 ≤ ((moveStep env pIdx arr i).getD i default).y ∧
      ((moveStep env pIdx arr i).getD i default).y ≤ MAP_SIZE := by
  have hM : (0 : ℝ) ≤ MAP_SIZE := by norm_num [MAP_SIZE]
  obtain ⟨hid, hm⟩ := moveBranch_fst env pIdx arr i (arr.getD i default)
  have hms :
      moveStep env pIdx arr i =
        (moveBranch env pIdx arr i (arr.getD i default)).2.set i
          { (moveBranch env pIdx arr i (arr.getD i default)).1 with
            x := max 0 (min MAP_SIZE (moveBranch env pIdx arr i (arr.getD i default)).1.x),
            y := max 0 (min MAP_SIZE (moveBranch env pIdx arr i (arr.getD i default)).1.y),
            radius := Real.sqrt (moveBranch env pIdx arr i (arr.getD i default)).1.mass * 4,
            mass := (moveBranch env pIdx arr i (arr.getD i default)).1.mass * 0.99999 } := by
    simp only [moveStep]
    rw [if_neg hty]
  rw [hms, getD_set_self _ _ _ (by rw [moveBranch_snd_len]; exact hi)]
  refine ⟨identEq_trans hid (by simp [identEq]),
    congrArg (fun t => t * (0.99999 : ℝ)) hm,
    congrArg (fun t => Real.sqrt t * 4) hm, ?_, ?_, ?_, ?_⟩
  · exact le_max_left 0 _
  · exact max_le hM (min_le_left _ _)
  · exact le_max_left 0 _
  · exact max_le hM (min_le_left _ _)

/- Cumulative effect of the movement loop. -/

theorem moveDone_exceptPos {src r r' : Entity} (h : moveDone src r) (h2 : exceptPos r r') :
    moveDone src r' := by
  obtain ⟨hident, hfv, hnfv⟩ := h
  have hmass : r.mass = r'.mass := h2.2.2.2.2.2.2.2.2.2.1
  have hrad : r.radius = r'.radius := h2.2.2.2.2.2.2.2.1
  exact ⟨identEq_trans hident (exceptPos_identEq h2),
    fun hh => ⟨hmass ▸ (hfv hh).1, hrad ▸ (hfv hh).2⟩,
    fun hh => ⟨hmass ▸ (hnfv hh).1, hrad ▸ (hnfv hh).2⟩⟩

theorem exceptPos_moveDone_static {src r : Entity}
    (hfv : src.ty = .food ∨ src.ty = .virus) (h : exceptPos src r) : moveDone src r :=
  ⟨exceptPos_identEq h,
    fun _ => ⟨h.2.2.2.2.2.2.2.2.2.1.symm, h.2.2.2.2.2.2.2.1.symm⟩,
    fun hh => absurd hfv hh⟩

theorem movePhase_eq_mproc (env : Env) (pIdx : Option ℕ) (s : List Entity) :
    movePhase env pIdx s = mproc env pIdx s s.length := rfl

theorem mproc_spec (env : Env) (pIdx : Option ℕ) (s : List Entity) :
    ∀ k, k ≤ s.length →
      (mproc env pIdx s k).length = s.length ∧
      (∀ j, k ≤ j → exceptPos (s.getD j default) ((mproc env pIdx s k).getD j default)) ∧
      (∀ j, j < k → moveDone (s.getD j default) ((mproc env pIdx s k).getD j default)) ∧
      (∀ j, ((s.getD j default).ty = .food ∨ (s.getD j default).ty = .virus) →
        isPlayerEnt (s.getD j default) = false →
        (mproc env pIdx s k).getD j default = s.getD j default) ∧
      (∀ j, j < k → isPlayerEnt (s.getD j default) = false →
        ¬((s.getD j default).ty = .food ∨ (s.getD j default).ty = .virus) →
        0 ≤ ((mproc env pIdx s k).getD j default).x ∧
          ((mproc env pIdx s k).getD j default).x ≤ MAP_SIZE ∧
          0 ≤ ((mproc env pIdx s k).getD j default).y ∧
          ((mproc env pIdx s k).getD j default).y ≤ MAP_SIZE) := by
  intro k
  induction k with
  | zero =>
    intro _
    exact ⟨rfl, fun j _ => exceptPos_refl _, fun j hj => absurd hj (Nat.not_lt_zero j),
      fun j _ _ => rfl, fun j hj => absurd hj (Nat.not_lt_zero j)⟩
  | succ k ih =>
    intro hk1
    have hklt : k < s.length := Nat.lt_of_succ_le hk1
    obtain ⟨ihlen, ihrest, ihdone, ihfix, ihbnd⟩ := ih (Nat.le_of_lt hklt)
    have hstep : mproc env pIdx s (k + 1) = moveStep env pIdx (mproc env pIdx s k) k :=
      range_foldl_succ _ _ _
    have htyk : ((mproc env pIdx s k).getD k default).ty = (s.getD k default).ty :=
      (ihrest k (le_refl k)).2.1.symm
    by_cases hfv : (s.getD k default).ty = .food ∨ (s.getD k default).ty = .virus
    · have hskip : mproc env pIdx s (k + 1) = mproc env pIdx s k := by
        rw [hstep, moveStep_skip]
        rw [htyk]
        exact hfv
      rw [hskip]
      refine ⟨ihlen, fun j hj => ihrest j (Nat.le_of_succ_le hj), ?_, ihfix, ?_⟩
      · intro j hj
        rcases Nat.lt_succ_iff_lt_or_eq.mp hj with hj' | hj'
        · exact ihdone j hj'
        · subst hj'
          exact exceptPos_moveDone_static hfv (ihrest j (le_refl j))
      · intro j hj hNp hnfv
        rcases Nat.lt_succ_iff_lt_or_eq.mp hj with hj' | hj'
        · exact ihbnd j hj' hNp hnfv
        · subst hj'
          exact absurd hfv hnfv
    · have hfvA :
          ¬(((mproc env pIdx s k).getD k default).ty = .food ∨
            ((mproc env pIdx s k).getD k default).ty = .virus) := by
        rw [htyk]
        exact hfv
      have hself :=
        moveStep_self env pIdx (mproc env pIdx s k) k (by rw [ihlen]; exact hklt) hfvA
      refine ⟨?_, ?_, ?_, ?_, ?_⟩
      · rw [hstep, moveStep_length, ihlen]
      · intro j hj
        have hjk : j ≠ k := by omega
        rw [hstep]
        exact exceptPos_trans (ihrest j (by omega)) (moveStep_getD_ne _ _ _ _ _ hjk)
      · intro j hj
        rcases Nat.lt_succ_iff_lt_or_eq.mp hj with hj' | hj'
        · have hjk : j ≠ k := by omega
          rw [hstep]
          exact moveDone_exceptPos (ihdone j hj') (moveStep_getD_ne _ _ _ _ _ hjk)
        · subst hj'
          rw [hstep]
          have hrest := ihrest j (le_refl j)
          refine ⟨identEq_trans (exceptPos_identEq hrest) hself.1, fun hh => absurd hh hfv,
            fun _ => ⟨?_, ?_⟩⟩
          · rw [hself.2.1, ← hrest.2.2.2.2.2.2.2.2.2.1]
          · rw [hself.2.2.1, ← hrest.2.2.2.2.2.2.2.2.2.1]
      · intro j hjfv hNp
        have hjk : j ≠ k := by
          intro hh
          subst hh
          exact hfv hjfv
        have hNpA : isPlayerEnt ((mproc env pIdx s k).getD j default) = false := by
          rw [ihfix j hjfv hNp]
          exact hNp
        rw [hstep, moveStep_fixed_nonplayer _ _ _ _ _ hjk hNpA]
        exact ihfix j hjfv hNp
      · intro j hj hNp hnfv
        rcases Nat.lt_succ_iff_lt_or_eq.mp hj with hj' | hj'
        · have hjk : j ≠ k := by omega
          have hNpA : isPlayerEnt ((mproc env pIdx s k).getD j default) = false := by
            rw [← identEq_isPlayer (ihdone j hj').1]
            exact hNp
          rw [hstep, moveStep_fixed_nonplayer _ _ _ _ _ hjk hNpA]
          exact ihbnd j hj' hNp hnfv
        · subst hj'
          rw [hstep]
          exact hself.2.2.2

theorem movePhase_length (env : Env) (pIdx : Option ℕ) (s : List Entity) :
    (movePhase env pIdx s).length = s.length := by
  rw [movePhase_eq_mproc]
  exact (mproc_spec env pIdx s s.length (le_refl _)).1

theorem movePhase_moveDone (env : Env) (pIdx : Option ℕ) (s : List Entity) (j : ℕ)
    (hj : j < s.length) :
    moveDone (s.getD j default) ((movePhase env pIdx s).getD j default) := by
  rw [movePhase_eq_mproc]
  exact (mproc_spec env pIdx s s.length (le_refl _)).2.2.1 j hj

theorem movePhase_identEq (env : Env) (pIdx : Option ℕ) (s : List Entity) (j : ℕ) :
    identEq (s.getD j default) ((movePhase env pIdx s).getD j default) := by
  by_cases hj : j < s.length
  · exact (movePhase_moveDone env pIdx s j hj).1
  · rw [movePhase_eq_mproc]
    exact exceptPos_identEq
      ((mproc_spec env pIdx s s.length (le_refl _)).2.1 j (Nat.le_of_not_lt hj))

theorem movePhase_staticFixed (env : Env) (pIdx : Option ℕ) (s : List Entity) (j : ℕ)
    (hfv : (s.getD j default).ty = .food ∨ (s.getD j default).ty = .virus)
    (hNp : isPlayerEnt (s.getD j default) = false) :
    (movePhase env pIdx s).getD j default = s.getD j default := by
  rw [movePhase_eq_mproc]
  exact (mproc_spec env pIdx s s.length (le_refl _)).2.2.2.1 j hfv hNp

theorem movePhase_bounds (env : Env) (pIdx : Option ℕ) (s : List Entity) (j : ℕ)
    (hj : j < s.length) (hNp : isPlayerEnt (s.getD j default) = false)
    (hnfv : ¬((s.getD j default).ty = .food ∨ (s.getD j default).ty = .virus)) :
    0 ≤ ((movePhase env pIdx s).getD j default).x ∧
      ((movePhase env pIdx s).getD j default).x ≤ MAP_SIZE ∧
      0 ≤ ((movePhase env pIdx s).getD j default).y ∧
      ((movePhase env pIdx s).getD j default).y ≤ MAP_SIZE := by
  rw [movePhase_eq_mproc]
  exact (mproc_spec env pIdx s s.length (le_refl _)).2.2.2.2 j hj hNp hnfv

/- Effects of the collision loop. -/

theorem buildGrid_idx_lt (arr : List Entity) : ∀ en ∈ buildGrid arr, en.idx < arr.length := by
  unfold buildGrid
  refine foldl_inv
    (fun g i => gridInsert g (arr.getD i default).x (arr.getD i default).y i)
    (fun g => ∀ en ∈ g, en.idx < arr.length) (List.range arr.length) [] (by simp) ?_
  intro g i hi hg en hen
  unfold gridInsert at hen
  dsimp only at hen
  split at hen
  · rcases List.mem_append.mp hen with h | h
    · exact hg en h
    · rw [List.mem_singleton.mp h]
      exact List.mem_range.mp hi
  · exact hg en hen

theorem getNearby_idx_lt (arr : List Entity) (x y r : ℝ) :
    ∀ j ∈ getNearby (buildGrid arr) x y r, j < arr.length := by
  intro j hj
  simp only [getNearby, List.mem_flatMap] at hj
  obtain ⟨ox, _, hj⟩ := hj
  obtain ⟨oy, _, hj⟩ := hj
  split at hj
  · rw [List.mem_map] at hj
    obtain ⟨en, hen, hje⟩ := hj
    rw [← hje]
    exact buildGrid_idx_lt arr en (List.mem_filter.mp hen).1
  · exact absurd hj (List.not_mem_nil j)

theorem pairStep_cases (env : Env) (i j : ℕ) (st : CollState) :
    pairStep env i st j = st ∨ PairOutcome i j st (pairStep env i st j) := by
  by_cases h0 : i = j ∨ j ∈ st.dead
  · left
    simp [pairStep, h0]
  · simp only [pairStep, if_neg h0]
    split
    · split
      · split
        · right
          refine ⟨_, _, _, _, _, _, _, h0, rfl, ?_, ?_, ?_, ?_, ?_⟩
          · intro e he
            rcases List.mem_append.mp he with h | h
            · exact Or.inl h
            · rw [List.mem_singleton.mp h]
              exact Or.inr (Or.inl rfl)
          · intro _
            rename_i hv _ _ _
            exact ⟨hv.1, hv.2, rfl, rfl, Or.inr rfl⟩
          · intro hk
            exact absurd hk (by decide)
          · intro hk
            exact absurd hk (by decide)
          · intro hk
            exact absurd hk (by decide)
        · right
          refine ⟨_, _, _, _, _, _, _, h0, rfl, ?_, ?_, ?_, ?_, ?_⟩
          · intro e he
            exact Or.inl he
          · intro _
            rename_i hv _ _ _
            exact ⟨hv.1, hv.2, rfl, rfl, Or.inl rfl⟩
          · intro hk
            exact absurd hk (by decide)
          · intro hk
            exact absurd hk (by decide)
          · intro hk
            exact absurd hk (by decide)
      · left
        rfl
    · split
      · split
        · right
          rename_i hbv hbgate hbplayer
          refine ⟨_, _, _, _, _, _, _, h0, rfl, ?_, ?_, ?_, ?_, ?_⟩
          · intro e he
            rcases List.mem_append.mp he with h | h
            · exact Or.inl h
            · rw [List.mem_map] at h
              obtain ⟨k, _, hke⟩ := h
              rw [← hke]
              exact Or.inr (Or.inr rfl)
          · intro hk
            exact absurd hk (by decide)
          · intro _
            exact ⟨hbplayer.1, hbplayer.2.1, hbplayer.2.2, rfl, rfl, rfl⟩
          · intro hk
            exact absurd hk (by decide)
          · intro hk
            exact absurd hk (by decide)
        · split
          · split
            · split
              · right
                rename_i hgate hsib htimers
                refine ⟨_, _, _, _, _, _, _, h0, rfl, ?_, ?_, ?_, ?_, ?_⟩
                · intro e he
                  exact Or.inl he
                · intro hk
                  exact absurd hk (by decide)
                · intro hk
                  exact absurd hk (by decide)
                · intro _
                  exact ⟨hsib.1, hsib.2, htimers.1, htimers.2, hgate, rfl, rfl, rfl⟩
                · intro hk
                  exact absurd hk (by decide)
              · left
                rfl
            · split
              · left
                rfl
              · right
                rename_i hgate hsib hcool
                refine ⟨_, _, _, _, _, _, _, h0, rfl, ?_, ?_, ?_, ?_, ?_⟩
                · intro e he
                  exact Or.inl he
                · intro hk
                  exact absurd hk (by decide)
                · intro hk
                  exact absurd hk (by decide)
                · intro hk
                  exact absurd hk (by decide)
                · intro _
                  exact ⟨hgate, hsib, rfl, rfl, rfl⟩
          · left
            rfl
      · left
        rfl

theorem getD_mem (l : List Entity) (k : ℕ) (hk : k < l.length) : l.getD k default ∈ l := by
  have h : l.getD k default = l[k] := by
    simp [List.getD, List.getElem?_eq_getElem hk]
  rw [h]
  exact List.getElem_mem hk

theorem getD_default_of_le (l : List Entity) (k : ℕ) (hk : l.length ≤ k) :
    l.getD k default = default := by
  simp [List.getD, List.getElem?_eq_none hk]

theorem wf_movePhase_MInv (env : Env) (pIdx : Option ℕ) (s : List Entity)
    (hwf : WellFormed s) : MInv (movePhase env pIdx s) := by
  intro k hk
  rw [movePhase_length] at hk
  have hsrc := hwf (s.getD k default) (getD_mem s k hk)
  have hdone := movePhase_moveDone env pIdx s k hk
  obtain ⟨hident, hfv, hnfv⟩ := hdone
  have hty : ((movePhase env pIdx s).getD k default).ty = (s.getD k default).ty :=
    hident.2.1.symm
  have hpl :
      isPlayerEnt ((movePhase env pIdx s).getD k default) = isPlayerEnt (s.getD k default) :=
    (identEq_isPlayer hident).symm
  by_cases hc : (s.getD k default).ty = .food ∨ (s.getD k default).ty = .virus
  · obtain ⟨hmeq, _⟩ := hfv hc
    refine ⟨by rw [hmeq]; exact hsrc.1, ?_, ?_⟩
    · intro hv
      rw [hty] at hv
      exact ⟨by rw [hmeq]; exact (hsrc.2.1 hv).1, by rw [hpl]; exact (hsrc.2.1 hv).2⟩
    · intro hej
      rw [hty] at hej
      rcases hc with hc | hc <;> rw [hej] at hc <;> exact absurd hc (by decide)
  · obtain ⟨hmeq, _⟩ := hnfv hc
    refine ⟨by rw [hmeq]; nlinarith [hsrc.1], ?_, ?_⟩
    · intro hv
      rw [hty] at hv
      exact absurd (Or.inr hv) hc
    · intro hej
      rw [hty] at hej
      have := hsrc.2.2.1 hej
      rw [hmeq]
      nlinarith [hsrc.1]

theorem pairStep_inv (env : Env) (m : List Entity) (hm : MInv m) (i j : ℕ)
    (hi : i < m.length) (hj : j < m.length)
    (hity : (m.getD i default).ty = .player ∨ (m.getD i default).ty = .ai ∨
      (m.getD i default).ty = .virus)
    (st : CollState) (hst : CollInv m st) : CollInv m (pairStep env i st j) := by
  rcases pairStep_cases env i j st with hcase | hout
  · rw [hcase]
    exact hst
  · obtain ⟨kind, gain, mnew, pAfter, addsNew, xpNew, rkNew, hnd, heq, hadds,
      hve, hbu, hme, hab⟩ := hout
    obtain ⟨hlen, hexm, hpos, hvir, hejm, hevok, hnodup, hdead, haddty⟩ := hst
    have hilen : i < st.arr.length := by rw [hlen]; exact hi
    have htyi : (st.arr.getD i default).ty = (m.getD i default).ty := (hexm i).2.1.symm
    have htyj : (st.arr.getD j default).ty = (m.getD j default).ty := (hexm j).2.1.symm
    have hpli : isPlayerEnt (st.arr.getD i default) = isPlayerEnt (m.getD i default) :=
      (exceptMass_isPlayer (hexm i)).symm
    have hplj : isPlayerEnt (st.arr.getD j default) = isPlayerEnt (m.getD j default) :=
      (exceptMass_isPlayer (hexm j)).symm
    have hposi : 0 < (st.arr.getD i default).mass := hpos i hi
    have hposj : 0 < (st.arr.getD j default).mass := hpos j hj
    have hjdead : j ∉ st.dead := fun hh => hnd (Or.inr hh)
    -- mass written at index i in every acting branch is positive
    have hmnew : 0 < mnew := by
      cases kind with
      | virusEat =>
        rcases (hve rfl).2.2.2.2 with h | h
        · rw [h]; linarith
        · rw [h]; norm_num
      | burst =>
        obtain ⟨hbty, hbgate, _, _, hmn, _⟩ := hbu rfl
        have hb100 : 100 ≤ (st.arr.getD j default).mass := by
          apply hvir j
          rw [← htyj]
          exact hbty
        have hfl : (6 : ℤ) ≤ ⌊(st.arr.getD i default).mass / 20⌋ := by
          rw [Int.le_floor]
          push_cast
          linarith
        have hmin : (6 : ℤ) ≤ min 14 ⌊(st.arr.getD i default).mass / 20⌋ :=
          le_min (by norm_num) hfl
        have hcast : (0 : ℝ) < ((min 14 ⌊(st.arr.getD i default).mass / 20⌋ : ℤ) : ℝ) := by
          have : (0 : ℤ) < min 14 ⌊(st.arr.getD i default).mass / 20⌋ := by omega
          exact_mod_cast this
        rw [hmn]
        exact div_pos (by linarith) hcast
      | merge =>
        rw [(hme rfl).2.2.2.2.2.2.1]
        linarith
      | absorb =>
        rw [(hab rfl).2.2.2.1]
        linarith
    rw [heq]
    refine ⟨by simpa [List.length_set] using hlen, ?_, ?_, ?_, ?_, ?_, ?_, ?_, ?_⟩
    · intro k
      by_cases hk : k = i
      · subst hk
        rw [getD_set_self _ _ _ hilen]
        exact exceptMass_trans (hexm k) (exceptMass_update _ _)
      · rw [getD_set_ne _ _ _ _ hk]
        exact hexm k
    · intro k hk
      by_cases hki : k = i
      · subst hki
        rw [getD_set_self _ _ _ hilen]
        exact hmnew
      · rw [getD_set_ne _ _ _ _ hki]
        exact hpos k hk
    · intro k hkv
      by_cases hki : k = i
      · subst hki
        rw [getD_set_self _ _ _ hilen]
        show 100 ≤ mnew
        have hpfalse : isPlayerEnt (st.arr.getD k default) = false := by
          rw [hpli]
          exact ((hm k hi).2.1 hkv).2
        cases kind with
        | virusEat =>
          rcases (hve rfl).2.2.2.2 with h | h
          · rw [h]
            have := hvir k hkv
            linarith
          · rw [h]
        | burst =>
          rw [(hbu rfl).2.2.1] at hpfalse
          exact absurd hpfalse (by decide)
        | merge =>
          rw [(hme rfl).1] at hpfalse
          exact absurd hpfalse (by decide)
        | absorb =>
          rw [(hab rfl).2.2.2.1]
          have := hvir k hkv
          linarith
      · rw [getD_set_ne _ _ _ _ hki]
        exact hvir k hkv
    · intro k hke
      by_cases hki : k = i
      · subst hki
        rw [hke] at hity
        rcases hity with h | h | h <;> exact absurd h (by decide)
      · rw [getD_set_ne _ _ _ _ hki]
        exact hejm k hke
    · intro ev hev
      rcases List.mem_append.mp hev with hold | hnew
      · exact hevok ev hold
      · rw [List.mem_singleton.mp hnew]
        refine ⟨?_, hposj, ?_, ?_⟩
        · intro hkb
          cases kind with
          | virusEat =>
            exact ⟨(hve rfl).2.2.1, by rw [(hve rfl).2.2.2.1, (hve rfl).2.2.1]⟩
          | burst => exact absurd rfl hkb
          | merge =>
            refine ⟨(hme rfl).2.2.2.2.2.1, ?_⟩
            rw [(hme rfl).2.2.2.2.2.2.2, (hme rfl).2.2.2.2.2.2.1, (hme rfl).2.2.2.2.2.1]
          | absorb =>
            refine ⟨(hab rfl).2.2.1, ?_⟩
            rw [(hab rfl).2.2.2.2, (hab rfl).2.2.2.1, (hab rfl).2.2.1]
        · show (st.arr.getD i default).mass > (st.arr.getD j default).mass * 1.15
          cases kind with
          | virusEat =>
            have h100 : 100 ≤ (st.arr.getD i default).mass := by
              apply hvir i
              rw [← htyi]
              exact (hve rfl).1
            have h14 : (st.arr.getD j default).mass ≤ 14 := by
              have hjej : (m.getD j default).ty = .ejected := by
                rw [← htyj]
                exact (hve rfl).2.1
              rw [hejm j hjej]
              exact (hm j hj).2.2 hjej
            linarith
          | burst =>
            have := (hbu rfl).2.1
            linarith
          | merge => exact (hme rfl).2.2.2.2.1
          | absorb => exact (hab rfl).1
        · intro hboth
          cases kind with
          | virusEat =>
            have : isPlayerEnt (st.arr.getD i default) = false := by
              rw [hpli]
              refine ((hm i hi).2.1 ?_).2
              rw [← htyi]
              exact (hve rfl).1
            rw [this] at hboth
            exact absurd hboth.1 (by decide)
          | burst =>
            have : isPlayerEnt (st.arr.getD j default) = false := by
              rw [hplj]
              refine ((hm j hj).2.1 ?_).2
              rw [← htyj]
              exact (hbu rfl).1
            rw [this] at hboth
            exact absurd hboth.2 (by decide)
          | merge => exact ⟨rfl, (hme rfl).2.2.1, (hme rfl).2.2.2.1⟩
          | absorb => exact absurd hboth (hab rfl).2.1
    · rw [List.map_append]
      have hjnot : j ∉ st.events.map fun ev => ev.prey := by
        intro hjm
        rw [List.mem_map] at hjm
        obtain ⟨ev, hev, hevp⟩ := hjm
        exact hjdead (hevp ▸ (hdead ev hev).1)
      simpa using List.Nodup.append hnodup (List.nodup_singleton j)
        (by simpa using hjnot)
    · intro ev hev
      rcases List.mem_append.mp hev with hold | hnew
      · exact ⟨List.mem_append_left _ (hdead ev hold).1, (hdead ev hold).2⟩
      · rw [List.mem_singleton.mp hnew]
        exact ⟨List.mem_append_right _ (List.mem_singleton_self j), hj, hi⟩
    · intro e he
      rcases hadds e he with h | h
      · exact haddty e h
      · exact h

theorem collStep_inv (env : Env) (m : List Entity) (hm : MInv m) (i : ℕ) (st : CollState)
    (hst : CollInv m st) : CollInv m (collStep env (buildGrid m) st i) := by
  simp only [collStep]
  split
  · exact hst
  · have hst1 :
        CollInv m
          (if isPlayerEnt (st.arr.getD i default) = true then
            { st with pms := st.pms + (st.arr.getD i default).mass }
          else st) := by
      split
      · exact hst
      · exact hst
    split
    · exact hst1
    · rename_i hgate
      push_neg at hgate
      have htyi : (st.arr.getD i default).ty = (m.getD i default).ty := (hst.2.1 i).2.1.symm
      have hi : i < m.length := by
        by_contra hile
        have hdef : st.arr.getD i default = default := by
          apply getD_default_of_le
          rw [hst.1]
          exact Nat.le_of_not_lt hile
        rw [hdef] at hgate
        revert hgate
        decide
      have hity :
          (m.getD i default).ty = .player ∨ (m.getD i default).ty = .ai ∨
            (m.getD i default).ty = .virus := by
        rw [← htyi]
        by_cases h1 : (st.arr.getD i default).ty = .player
        · exact Or.inl h1
        · by_cases h2 : (st.arr.getD i default).ty = .ai
          · exact Or.inr (Or.inl h2)
          · exact Or.inr (Or.inr (hgate h1 h2))
      refine foldl_inv (pairStep env i) (CollInv m) _ _ hst1 ?_
      intro b a ha hb
      exact pairStep_inv env m hm i a hi
        (getNearby_idx_lt m (st.arr.getD i default).x (st.arr.getD i default).y
          (st.arr.getD i default).radius a ha) hity b hb

theorem collPhase_inv (env : Env) (m : List Entity) (hm : MInv m) :
    CollInv m (collPhase env (buildGrid m) m) := by
  unfold collPhase
  refine foldl_inv (collStep env (buildGrid m)) (CollInv m) _ _ ?_ ?_
  · refine ⟨rfl, fun k => exceptMass_refl _, fun k hk => (hm k hk).1, ?_, fun k _ => rfl,
      fun ev hev => absurd hev (List.not_mem_nil ev), List.nodup_nil,
      fun ev hev => absurd hev (List.not_mem_nil ev),
      fun e he => absurd he (List.not_mem_nil e)⟩
    intro k hkv
    by_cases hk : k < m.length
    · exact ((hm k hk).2.1 hkv).1
    · rw [getD_default_of_le m k (Nat.le_of_not_lt hk)] at hkv
      exact absurd hkv (by decide)
  · intro b a _ hb
    exact collStep_inv env m hm a b hb

theorem getD_eq_getElem (l : List Entity) (k : ℕ) (hk : k < l.length) :
    l.getD k default = l[k] := by
  simp [List.getD, List.getElem?_eq_getElem hk]

theorem runPhysicsTick_eq (env : Env) (s : List Entity) :
    runPhysicsTick env s =
      if (s.filter fun e => isPlayerEnt e).isEmpty ∧ env.playing then ⟨s, [], [], [], 0, 0⟩
      else
        ⟨if (tickColl env s).dead ≠ [] ∨ (tickColl env s).adds ≠ [] then
            (removePhase env (tickColl env s).dead (tickColl env s).rk
                (tickColl env s).arr).1 ++
              (tickColl env s).adds
          else (tickColl env s).arr,
          (tickColl env s).events, (tickColl env s).dead, (tickColl env s).adds,
          (tickColl env s).xp, (tickColl env s).pms⟩ := rfl

theorem tickColl_inv (env : Env) (s : List Entity) (hwf : WellFormed s) :
    CollInv (movePhase env (s.findIdx? fun e => isPlayerEnt e) s) (tickColl env s) :=
  collPhase_inv env _ (wf_movePhase_MInv env _ s hwf)

theorem tick_events_facts (env : Env) (s : List Entity) (hwf : WellFormed s) :
    (∀ ev ∈ (runPhysicsTick env s).events, EvOk ev) ∧
      ((runPhysicsTick env s).events.map fun ev => ev.prey).Nodup ∧
      (∀ ev ∈ (runPhysicsTick env s).events, ev.prey ∈ (runPhysicsTick env s).dead) := by
  rw [runPhysicsTick_eq]
  split
  · exact ⟨fun ev hev => absurd hev (List.not_mem_nil ev), List.nodup_nil,
      fun ev hev => absurd hev (List.not_mem_nil ev)⟩
  · have hinv := tickColl_inv env s hwf
    exact ⟨hinv.2.2.2.2.2.1, hinv.2.2.2.2.2.2.1,
      fun ev hev => (hinv.2.2.2.2.2.2.2.1 ev hev).1⟩

/- Unconditional structural facts about the collision loop, and food counting. -/

theorem pairStep_shape (env : Env) (i j : ℕ) (st : CollState) :
    (pairStep env i st j).arr.length = st.arr.length ∧
      (∀ k, exceptMass (st.arr.getD k default) ((pairStep env i st j).arr.getD k default)) ∧
      (∀ e ∈ (pairStep env i st j).adds, e ∈ st.adds ∨ e.ty = .virus ∨ e.ty = .player) := by
  rcases pairStep_cases env i j st with hcase | hout
  · rw [hcase]
    exact ⟨rfl, fun k => exceptMass_refl _, fun e he => Or.inl he⟩
  · obtain ⟨kind, gain, mnew, pAfter, addsNew, xpNew, rkNew, hnd, heq, hadds, _, _, _, _⟩ :=
      hout
    rw [heq]
    refine ⟨List.length_set _ _ _, ?_, hadds⟩
    intro k
    by_cases hk : k = i
    · subst hk
      by_cases hl : k < st.arr.length
      · rw [getD_set_self _ _ _ hl]
        exact exceptMass_update _ _
      · rw [List.set_eq_of_length_le (Nat.le_of_not_lt hl)]
        exact exceptMass_refl _
    · rw [getD_set_ne _ _ _ _ hk]
      exact exceptMass_refl _

theorem collStep_shape (env : Env) (g : Grid) (i : ℕ) (st : CollState) (arr0 : List Entity)
    (h : st.arr.length = arr0.length ∧
      (∀ k, exceptMass (arr0.getD k default) (st.arr.getD k default)) ∧
      (∀ e ∈ st.adds, e.ty = .virus ∨ e.ty = .player)) :
    (collStep env g st i).arr.length = arr0.length ∧
      (∀ k, exceptMass (arr0.getD k default) ((collStep env g st i).arr.getD k default)) ∧
      (∀ e ∈ (collStep env g st i).adds, e.ty = .virus ∨ e.ty = .player) := by
  simp only [collStep]
  split
  · exact h
  · have h1 :
        (if isPlayerEnt (st.arr.getD i default) = true then
            { st with pms := st.pms + (st.arr.getD i default).mass }
          else st).arr.length = arr0.length ∧
          (∀ k, exceptMass (arr0.getD k default)
            ((if isPlayerEnt (st.arr.getD i default) = true then
                { st with pms := st.pms + (st.arr.getD i default).mass }
              else st).arr.getD k default)) ∧
          (∀ e ∈ (if isPlayerEnt (st.arr.getD i default) = true then
              { st with pms := st.pms + (st.arr.getD i default).mass }
            else st).adds, e.ty = .virus ∨ e.ty = .player) := by
      split
      · exact h
      · exact h
    split
    · exact h1
    · refine foldl_inv (pairStep env i)
        (fun q => q.arr.length = arr0.length ∧
          (∀ k, exceptMass (arr0.getD k default) (q.arr.getD k default)) ∧
          (∀ e ∈ q.adds, e.ty = .virus ∨ e.ty = .player)) _ _ h1 ?_
      intro b a _ hb
      obtain ⟨hl, hx, ha⟩ := pairStep_shape env i a b
      refine ⟨by rw [hl, hb.1], ?_, ?_⟩
      · intro k
        exact exceptMass_trans (hb.2.1 k) (hx k)
      · intro e he
        rcases ha e he with hh | hh
        · exact hb.2.2 e hh
        · exact hh

theorem collPhase_shape (env : Env) (g : Grid) (arr : List Entity) :
    (collPhase env g arr).arr.length = arr.length ∧
      (∀ k, exceptMass (arr.getD k default) ((collPhase env g arr).arr.getD k default)) ∧
      (∀ e ∈ (collPhase env g arr).adds, e.ty = .virus ∨ e.ty = .player) := by
  unfold collPhase
  refine foldl_inv (collStep env g)
    (fun q => q.arr.length = arr.length ∧
      (∀ k, exceptMass (arr.getD k default) (q.arr.getD k default)) ∧
      (∀ e ∈ q.adds, e.ty = .virus ∨ e.ty = .player)) _ _
    ⟨rfl, fun k => exceptMass_refl _, fun e he => absurd he (List.not_mem_nil e)⟩ ?_
  intro b a _ hb
  exact collStep_shape env g a b arr hb

theorem foodCount_append (l1 l2 : List Entity) :
    foodCount (l1 ++ l2) = foodCount l1 + foodCount l2 := by
  simp [foodCount, List.filter_append]

theorem foodCount_congr (l1 : List Entity) :
    ∀ l2 : List Entity, l1.length = l2.length →
      (∀ k, k < l1.length → (l1.getD k default).ty = (l2.getD k default).ty) →
      foodCount l1 = foodCount l2 := by
  induction l1 with
  | nil =>
    intro l2 hlen _
    rw [List.length_nil] at hlen
    rw [(List.length_eq_zero.mp hlen.symm)]
  | cons a t ih =>
    intro l2 hlen hty
    cases l2 with
    | nil => exact absurd hlen (by simp)
    | cons b t2 =>
      have h0 : a.ty = b.ty := by
        have := hty 0 (by simp)
        simpa using this
      have hrest : foodCount t = foodCount t2 := by
        apply ih t2 (by simpa using hlen)
        intro k hk
        have := hty (k + 1) (by simpa using Nat.succ_lt_succ hk)
        simpa using this
      simp only [foodCount, List.filter_cons]
      rw [h0]
      split <;> simp [foodCount] at hrest ⊢ <;> omega

theorem foodCount_none (l : List Entity) (h : ∀ e ∈ l, e.ty = .virus ∨ e.ty = .player) :
    foodCount l = 0 := by
  rw [foodCount, List.length_eq_zero, List.filter_eq_nil_iff]
  intro e he
  rcases h e he with hh | hh <;> simp [hh]

theorem foodCount_singleton (e : Entity) :
    foodCount [e] = if e.ty = .food then 1 else 0 := by
  simp only [foodCount, List.filter_cons, List.filter_nil]
  split
  · rename_i hc
    rw [if_pos (by simpa using hc)]
    rfl
  · rename_i hc
    rw [if_neg (by simpa using hc)]
    rfl

theorem take_succ_getD (arr : List Entity) (k : ℕ) (hk : k < arr.length) :
    arr.take (k + 1) = arr.take k ++ [arr.getD k default] := by
  rw [List.take_succ, getD_eq_getElem _ _ hk, List.getElem?_eq_getElem hk]
  rfl

theorem removePhase_foodCount (env : Env) (dead : List ℕ) (rk : ℕ) (arr : List Entity) :
    foodCount (removePhase env dead rk arr).1 = foodCount arr := by
  have hgen : ∀ k, k ≤ arr.length →
      foodCount ((List.range k).foldl (removeStep env dead arr) ([], rk)).1 =
        foodCount (arr.take k) := by
    intro k
    induction k with
    | zero => intro _; rfl
    | succ k ih =>
      intro hk1
      have hk : k < arr.length := Nat.lt_of_succ_le hk1
      rw [range_foldl_succ, take_succ_getD arr k hk, foodCount_append, ← ih (Nat.le_of_lt hk)]
      simp only [removeStep]
      split
      · split
        · rename_i hfood
          simp [foodCount_append, foodCount_singleton, hfood]
        · rename_i hfood
          simp only [List.getD, List.get?_eq_getElem?] at hfood
          simp [foodCount_append, foodCount_singleton, hfood]
      · rw [foodCount_append]
  have := hgen arr.length (le_refl _)
  rw [List.take_length] at this
  exact this

theorem removePhase_mem (env : Env) (dead : List ℕ) (rk : ℕ) (arr : List Entity) :
    ∀ e' ∈ (removePhase env dead rk arr).1,
      ∃ i, i < arr.length ∧
        ((i ∉ dead ∧ e' = arr.getD i default) ∨
          (i ∈ dead ∧ (arr.getD i default).ty = .food ∧ ∃ t : ℕ,
            e' =
              { arr.getD i default with
                x := env.rng t * MAP_SIZE, y := env.rng (t + 1) * MAP_SIZE })) := by
  unfold removePhase
  refine foldl_inv (removeStep env dead arr)
    (fun p => ∀ e' ∈ p.1,
      ∃ i, i < arr.length ∧
        ((i ∉ dead ∧ e' = arr.getD i default) ∨
          (i ∈ dead ∧ (arr.getD i default).ty = .food ∧ ∃ t : ℕ,
            e' =
              { arr.getD i default with
                x := env.rng t * MAP_SIZE, y := env.rng (t + 1) * MAP_SIZE })))
    _ _ (by intro e' he'; exact absurd he' (List.not_mem_nil e')) ?_
  intro b a ha hb e' he'
  have halt : a < arr.length := List.mem_range.mp ha
  simp only [removeStep] at he'
  split at he'
  · split at he'
    · rcases List.mem_append.mp he' with hold | hnew
      · exact hb e' hold
      · refine ⟨a, halt, Or.inr ⟨by assumption, by assumption, b.2, ?_⟩⟩
        rw [List.mem_singleton.mp hnew]
    · exact hb e' he'
  · rcases List.mem_append.mp he' with hold | hnew
    · exact hb e' hold
    · exact ⟨a, halt, Or.inl ⟨by assumption, List.mem_singleton.mp hnew⟩⟩

theorem tick_foodCount (env : Env) (s : List Entity) :
    foodCount (runPhysicsTick env s).entities = foodCount s := by
  rw [runPhysicsTick_eq]
  split
  · rfl
  · have hmlen := movePhase_length env (s.findIdx? fun e => isPlayerEnt e) s
    have hm : foodCount (movePhase env (s.findIdx? fun e => isPlayerEnt e) s) = foodCount s := by
      apply foodCount_congr
      · exact hmlen
      · intro k hk
        exact ((movePhase_identEq env _ s k).2.1).symm
    obtain ⟨hclen, hcx, hca⟩ :=
      collPhase_shape env (buildGrid (movePhase env (s.findIdx? fun e => isPlayerEnt e) s))
        (movePhase env (s.findIdx? fun e => isPlayerEnt e) s)
    have hc : foodCount (tickColl env s).arr = foodCount s := by
      rw [← hm]
      apply foodCount_congr
      · exact hclen
      · intro k _
        exact ((hcx k).2.1).symm
    have hca2 : ∀ e ∈ (tickColl env s).adds, e.ty = .virus ∨ e.ty = .player := hca
    show foodCount
        (if (tickColl env s).dead ≠ [] ∨ (tickColl env s).adds ≠ [] then
          (removePhase env (tickColl env s).dead (tickColl env s).rk (tickColl env s).arr).1 ++
            (tickColl env s).adds
        else (tickColl env s).arr) = foodCount s
    split
    · rw [foodCount_append, removePhase_foodCount, hc, foodCount_none _ hca2, Nat.add_zero]
    · exact hc

/- A pair exactly at the dominance boundary is inert. -/

theorem pairStep_boundary (env : Env) (i j : ℕ) (st : CollState)
    (hb0 : 0 ≤ (st.arr.getD j default).mass)
    (heq : (st.arr.getD i default).mass = (st.arr.getD j default).mass * 1.15)
    (hnve : ¬((st.arr.getD i default).ty = .virus ∧ (st.arr.getD j default).ty = .ejected)) :
    pairStep env i st j = st := by
  by_cases h0 : i = j ∨ j ∈ st.dead
  · simp [pairStep, h0]
  · simp only [pairStep, if_neg h0, if_neg hnve]
    split
    · rw [if_neg, if_neg]
      · intro hgate
        rw [heq] at hgate
        exact absurd hgate (lt_irrefl _)
      · intro hburst
        have h13 := hburst.2.1
        rw [heq] at h13
        nlinarith
    · rfl

/- The progression while-loop. -/

theorem settleXp_step (exp lvl thr : ℕ) (h1 : 1 ≤ thr) (h2 : thr ≤ exp) :
    settleXp exp lvl thr = settleXp (exp - thr) (lvl + 1) (thr * 3 / 2) := by
  rw [settleXp]
  rw [dif_pos ⟨h1, h2⟩]

theorem settleXp_done (exp lvl thr : ℕ) (h : exp < thr) :
    settleXp exp lvl thr = (exp, lvl, thr) := by
  rw [settleXp]
  rw [dif_neg]
  intro hc
  omega

theorem settleXp_lt : ∀ exp lvl thr : ℕ, 1 ≤ thr →
    (settleXp exp lvl thr).1 < (settleXp exp lvl thr).2.2 := by
  intro e
  induction e using Nat.strong_induction_on with
  | _ e ih =>
    intro lvl thr ht
    by_cases hle : thr ≤ e
    · rw [settleXp_step e lvl thr ht hle]
      apply ih (e - thr) (by omega) (lvl + 1) (thr * 3 / 2) (by omega)
    · rw [settleXp_done e lvl thr (by omega)]
      show e < thr
      omega

/- Counting player-owned cells. -/

theorem playerCount_append (l1 l2 : List Entity) :
    playerCount (l1 ++ l2) = playerCount l1 + playerCount l2 := by
  simp [playerCount, List.filter_append]

theorem playerCount_congr (l1 : List Entity) :
    ∀ l2 : List Entity, l1.length = l2.length →
      (∀ k, k < l1.length → isPlayerEnt (l1.getD k default) = isPlayerEnt (l2.getD k default)) →
      playerCount l1 = playerCount l2 := by
  induction l1 with
  | nil =>
    intro l2 hlen _
    rw [List.length_nil] at hlen
    rw [(List.length_eq_zero.mp hlen.symm)]
  | cons a t ih =>
    intro l2 hlen hp
    cases l2 with
    | nil => exact absurd hlen (by simp)
    | cons b t2 =>
      have h0 : isPlayerEnt a = isPlayerEnt b := by
        have := hp 0 (by simp)
        simpa using this
      have hrest : playerCount t = playerCount t2 := by
        apply ih t2 (by simpa using hlen)
        intro k hk
        have := hp (k + 1) (by simpa using Nat.succ_lt_succ hk)
        simpa using this
      simp only [playerCount, List.filter_cons]
      rw [h0]
      split <;> simp [playerCount] at hrest ⊢ <;> omega

theorem mem_getD (l : List Entity) (e : Entity) (h : e ∈ l) :
    ∃ k, k < l.length ∧ l.getD k default = e := by
  obtain ⟨k, hk, he⟩ := List.mem_iff_getElem.mp h
  exact ⟨k, hk, by rw [getD_eq_getElem _ _ hk, he]⟩

/- Effect of the handleSplit fold. -/

theorem getD_append_lt {α : Type _} [Inhabited α] (l1 l2 : List α) (n : ℕ)
    (h : n < l1.length) : (l1 ++ l2).getD n default = l1.getD n default := by
  simp only [List.getD, List.get?_eq_getElem?]
  rw [List.getElem?_append_left h]

theorem getD_append_ge {α : Type _} [Inhabited α] (l1 l2 : List α) (n : ℕ) :
    (l1 ++ l2).getD (l1.length + n) default = l2.getD n default := by
  simp only [List.getD, List.get?_eq_getElem?]
  rw [List.getElem?_append_right (by omega)]
  have h : l1.length + n - l1.length = n := by omega
  rw [h]

theorem getD_set_self_g {α : Type _} [Inhabited α] (l : List α) (i : ℕ) (v : α)
    (h : i < l.length) : (l.set i v).getD i default = v := by
  simp [List.getD, List.getElem?_set_self, h]

theorem getD_set_ne_g {α : Type _} [Inhabited α] (l : List α) (i j : ℕ) (v : α)
    (h : j ≠ i) : (l.set i v).getD j default = l.getD j default := by
  simp [List.getD, List.getElem?_set_ne fun hh => h hh.symm]

theorem splitNewCell_player (env : Env) (cell : Entity) (halfMass r1 : ℝ) :
    isPlayerEnt (splitNewCell env cell halfMass r1) = true := by
  simp [splitNewCell, isPlayerEnt]

theorem splitStep_skip (env : Env) (q : List Entity × List Entity × ℤ × List SplitRec)
    (i : ℕ) (h : q.2.2.1 ≤ 0) : splitStep env q i = q := by
  simp [splitStep, h]

theorem splitStep_act (env : Env) (q : List Entity × List Entity × ℤ × List SplitRec)
    (i : ℕ) (h : ¬q.2.2.1 ≤ 0) :
    splitStep env q i =
      (q.1.set i
         { q.1.getD i default with
           mass := (q.1.getD i default).mass / 2,
           radius := Real.sqrt ((q.1.getD i default).mass / 2) * 4,
           mergeTimer := some (PHYSICS_TPS * 30) },
       q.2.1 ++
         [splitNewCell env (q.1.getD i default) ((q.1.getD i default).mass / 2)
            (Real.sqrt ((q.1.getD i default).mass / 2) * 4)],
       q.2.2.1 - 1, q.2.2.2 ++ [⟨i, (q.1.getD i default).mass⟩]) := by
  simp only [splitStep, if_neg h]

theorem splitFold_inv (env : Env) (s : List Entity) (avail0 : ℤ) :
    ∀ (l : List ℕ) (q : List Entity × List Entity × ℤ × List SplitRec),
      l.Nodup → (∀ i ∈ l, i < s.length) →
      (∀ i ∈ l, ∀ k, k < q.2.2.2.length → i ≠ (q.2.2.2.getD k default).idx) →
      SplitInv s avail0 q → SplitInv s avail0 (l.foldl (splitStep env) q) := by
  intro l
  induction l with
  | nil =>
    intro q _ _ _ hq
    exact hq
  | cons i t ih =>
    intro q hnd hlt hfresh hq
    rw [List.foldl_cons]
    obtain ⟨hq1, hq2, hq3, hq4, hq5, hq6, hq7⟩ := hq
    have hilen : i < q.1.length := by
      rw [hq1]
      exact hlt i (List.mem_cons_self i t)
    by_cases hav : q.2.2.1 ≤ 0
    · rw [splitStep_skip env q i hav]
      exact ih q (List.nodup_cons.mp hnd).2 (fun x hx => hlt x (List.mem_cons_of_mem i hx))
        (fun x hx => hfresh x (List.mem_cons_of_mem i hx)) ⟨hq1, hq2, hq3, hq4, hq5, hq6, hq7⟩
    · rw [splitStep_act env q i hav]
      apply ih _ (List.nodup_cons.mp hnd).2 (fun x hx => hlt x (List.mem_cons_of_mem i hx))
      · intro x hx k hk
        have hk2 : k < q.2.2.2.length + 1 := by
          simpa using hk
        by_cases hkl : k < q.2.2.2.length
        · rw [getD_append_lt _ _ _ hkl]
          exact hfresh x (List.mem_cons_of_mem i hx) k hkl
        · have hke : k = q.2.2.2.length := by omega
          subst hke
          have hlast :
              (q.2.2.2 ++ [(⟨i, (q.1.getD i default).mass⟩ : SplitRec)]).getD
                q.2.2.2.length default = ⟨i, (q.1.getD i default).mass⟩ := by
            have := getD_append_ge q.2.2.2 [(⟨i, (q.1.getD i default).mass⟩ : SplitRec)] 0
            rw [Nat.add_zero] at this
            exact this
          rw [hlast]
          intro hxe
          have hxi : x = i := hxe
          exact (List.nodup_cons.mp hnd).1 (hxi ▸ hx)
      · refine ⟨by rw [List.length_set, hq1], ?_, ?_, ?_, ?_, by dsimp only; omega, ?_⟩
        · intro k hk
          by_cases hki : k = i
          · subst hki
            rw [getD_set_self_g _ _ _ hilen, ← hq2 k hk]
            simp [isPlayerEnt]
          · rw [getD_set_ne_g _ _ _ _ hki]
            exact hq2 k hk
        · intro e he
          rcases List.mem_append.mp he with hold | hnew
          · exact hq3 e hold
          · rw [List.mem_singleton.mp hnew]
            exact splitNewCell_player env _ _ _
        · simp [hq4]
        · dsimp only
          rw [List.length_append, List.length_singleton]
          omega
        · intro k hk
          rw [List.length_append, List.length_singleton] at hk
          by_cases hkl : k < q.2.2.2.length
          · rw [getD_append_lt _ _ _ hkl]
            obtain ⟨hx1, hx2, hx3⟩ := hq7 k hkl
            refine ⟨hx1, ?_, ?_⟩
            · rw [getD_set_ne_g _ _ _ _
                (Ne.symm (hfresh i (List.mem_cons_self i t) k hkl))]
              exact hx2
            · rw [getD_append_lt _ _ _ (by omega : k < q.2.1.length)]
              exact hx3
          · have hke : k = q.2.2.2.length := by omega
            subst hke
            have hlast :
                (q.2.2.2 ++ [(⟨i, (q.1.getD i default).mass⟩ : SplitRec)]).getD
                  q.2.2.2.length default = ⟨i, (q.1.getD i default).mass⟩ := by
              have := getD_append_ge q.2.2.2 [(⟨i, (q.1.getD i default).mass⟩ : SplitRec)] 0
              rw [Nat.add_zero] at this
              exact this
            have hlastc :
                (q.2.1 ++
                    [splitNewCell env (q.1.getD i default) ((q.1.getD i default).mass / 2)
                       (Real.sqrt ((q.1.getD i default).mass / 2) * 4)]).getD
                  q.2.2.2.length default =
                  splitNewCell env (q.1.getD i default) ((q.1.getD i default).mass / 2)
                    (Real.sqrt ((q.1.getD i default).mass / 2) * 4) := by
              have := getD_append_ge q.2.1
                [splitNewCell env (q.1.getD i default) ((q.1.getD i default).mass / 2)
                   (Real.sqrt ((q.1.getD i default).mass / 2) * 4)] 0
              rw [Nat.add_zero, hq4] at this
              exact this
            rw [hlast, hlastc]
            refine ⟨by rw [← hq1]; exact hilen, ?_, rfl⟩
            rw [getD_set_self_g _ _ _ hilen]

theorem playerCount_all (l : List Entity) (h : ∀ e ∈ l, isPlayerEnt e = true) :
    playerCount l = l.length := by
  rw [playerCount, List.filter_eq_self.mpr h]

theorem handleSplit_inv (env : Env) (s : List Entity) :
    ((handleSplit env s).1 = s ∧ (handleSplit env s).2 = []) ∨
      ∃ q, SplitInv s ((MAX_PLAYER_CELLS : ℤ) - (playerCount s : ℤ)) q ∧
        0 < (MAX_PLAYER_CELLS : ℤ) - (playerCount s : ℤ) ∧
        (handleSplit env s).1 = q.1 ++ q.2.1 ∧ (handleSplit env s).2 = q.2.2.2 := by
  simp only [handleSplit]
  split
  · exact Or.inl ⟨rfl, rfl⟩
  · split
    · exact Or.inl ⟨rfl, rfl⟩
    · rename_i hav
      refine Or.inr ⟨_, ?_, ?_, rfl, rfl⟩
      · apply splitFold_inv
        · exact List.Nodup.filter _ (List.nodup_range _)
        · intro i hi
          exact List.mem_range.mp (List.mem_filter.mp hi).1
        · intro x _ k hk
          exact absurd hk (by simp)
        · refine ⟨rfl, fun k _ => rfl, ?_, rfl, by simp [playerCount], ?_, ?_⟩
          · intro e he
            exact absurd he (List.not_mem_nil e)
          · show (0:ℤ) ≤ (MAX_PLAYER_CELLS : ℤ) - ((s.filter fun e => isPlayerEnt e).length : ℤ)
            omega
          · intro k hk
            exact absurd hk (by simp)
      · simp only [playerCount]
        omega

/-- C10: the Split command never raises the number of player-owned cells above
the fixed cap — after handleSplit, the count of player-owned entities is at
most max(MAX_PLAYER_CELLS, the count before the call); exactly one new cell is
appended per recorded split; each recorded split leaves the split cell with
exactly half its recorded pre-split mass, and the matching new cell is
player-owned and carries the same half mass. -/
theorem claim10 (env : Env) (s : List Entity) :
    playerCount (handleSplit env s).1 ≤ max MAX_PLAYER_CELLS (playerCount s) ∧
      (handleSplit env s).1.length = s.length + (handleSplit env s).2.length ∧
      ∀ k, k < (handleSplit env s).2.length →
        ((handleSplit env s).2.getD k default).idx < s.length ∧
          ((handleSplit env s).1.getD ((handleSplit env s).2.getD k default).idx
              default).mass = ((handleSplit env s).2.getD k default).oldMass / 2 ∧
          isPlayerEnt ((handleSplit env s).1.getD (s.length + k) default) = true ∧
          ((handleSplit env s).1.getD (s.length + k) default).mass =
            ((handleSplit env s).2.getD k default).oldMass / 2 := by
  rcases handleSplit_inv env s with ⟨h1, h2⟩ | ⟨q, hinv, hpos, h1, h2⟩
  · rw [h1, h2]
    exact ⟨le_max_right _ _, by simp, fun k hk => absurd hk (by simp)⟩
  · obtain ⟨hlen1, hown, hplay, hlen2, havail, hnn, hrec⟩ := hinv
    have hcnt1 : playerCount q.1 = playerCount s := by
      apply playerCount_congr
      · rw [hlen1]
      · intro k hk
        exact hown k (by omega)
    have hcnt2 : playerCount q.2.1 = q.2.1.length := playerCount_all _ hplay
    refine ⟨?_, ?_, ?_⟩
    · rw [h1, playerCount_append, hcnt1, hcnt2]
      have hle : playerCount s + q.2.1.length ≤ MAX_PLAYER_CELLS := by
        rw [hlen2]
        omega
      exact le_trans hle (le_max_left _ _)
    · rw [h1, List.length_append, hlen1, h2, hlen2]
    · intro k hk
      rw [h2] at hk
      obtain ⟨hx1, hx2, hx3⟩ := hrec k hk
      have hgn : (handleSplit env s).1.getD (s.length + k) default = q.2.1.getD k default := by
        rw [h1, ← hlen1, getD_append_ge]
      have hkm : k < q.2.1.length := by
        rw [hlen2]
        exact hk
      refine ⟨by rw [h2]; exact hx1, ?_, ?_, ?_⟩
      · rw [h1, h2, getD_append_lt _ _ _ (by rw [hlen1]; exact hx1)]
        exact hx2
      · rw [hgn]
        apply hplay
        rw [getD_eq_getElem _ _ hkm]
        exact List.getElem_mem _
      · rw [hgn, h2]
        exact hx3

theorem claim10_witness :
    playerCount (handleSplit env0 W1).1 ≤ max MAX_PLAYER_CELLS (playerCount W1) ∧
      (handleSplit env0 W1).1.length = W1.length + (handleSplit env0 W1).2.length ∧
      ∀ k, k < (handleSplit env0 W1).2.length →
        ((handleSplit env0 W1).2.getD k default).idx < W1.length ∧
          ((handleSplit env0 W1).1.getD ((handleSplit env0 W1).2.getD k default).idx
              default).mass = ((handleSplit env0 W1).2.getD k default).oldMass / 2 ∧
          isPlayerEnt ((handleSplit env0 W1).1.getD (W1.length + k) default) = true ∧
          ((handleSplit env0 W1).1.getD (W1.length + k) default).mass =
            ((handleSplit env0 W1).2.getD k default).oldMass / 2 :=
  claim10 env0 W1

/- Concrete-world facts. -/

theorem W1_wf : WellFormed W1 := by
  intro e he
  simp only [W1, List.mem_cons, List.not_mem_nil, or_false] at he
  rcases he with h | h <;> subst h
  · exact ⟨by norm_num [entP], by simp [entP], by simp [entP], by simp [entP]⟩
  · exact ⟨by norm_num [entF], by simp [entF], by simp [entF],
      by simp [entF, isPlayerEnt]⟩

/-- C6: the number of food entities is invariant across physics ticks — a
consumed food pellet is respawned within the same tick, so foodCount is
conserved by runPhysicsTick and hence across any number of iterated ticks. -/
theorem claim6 (envs : ℕ → Env) (s : List Entity) (n : ℕ) :
    foodCount (tickIter envs n s) = foodCount s ∧
      foodCount (runPhysicsTick (envs n) s).entities = foodCount s := by
  constructor
  · induction n with
    | zero => rfl
    | succ k ih =>
      show foodCount (runPhysicsTick (envs k) (tickIter envs k s)).entities = foodCount s
      rw [tick_foodCount, ih]
  · exact tick_foodCount _ _

/-- C3: the progression while-loop settles experience into [0, threshold): for
any positive threshold the result satisfies exp < threshold; each level-up
subtracts the threshold, increments the level and grows the threshold by
floor(1.5x) (a strict growth for thresholds at least 2); and a single gain can
resolve several level-ups at once, e.g. 250 experience at level 1, threshold
100, settles to (0, 3, 225), two levels in one settling. -/
theorem claim3 :
    (∀ exp lvl thr : ℕ, 1 ≤ thr →
        (settleXp exp lvl thr).1 < (settleXp exp lvl thr).2.2) ∧
      (∀ exp lvl thr : ℕ, 1 ≤ thr → thr ≤ exp →
        settleXp exp lvl thr = settleXp (exp - thr) (lvl + 1) (thr * 3 / 2)) ∧
      (∀ thr : ℕ, 2 ≤ thr → thr < thr * 3 / 2) ∧
      settleXp 250 1 100 = (0, 3, 225) := by
  refine ⟨settleXp_lt, settleXp_step, fun thr h => by omega, ?_⟩
  have h1 : settleXp 250 1 100 = settleXp 150 2 150 := by
    have h := settleXp_step 250 1 100 (by norm_num) (by norm_num)
    norm_num at h
    exact h
  have h2 : settleXp 150 2 150 = settleXp 0 3 225 := by
    have h := settleXp_step 150 2 150 (by norm_num) (by norm_num)
    norm_num at h
    exact h
  rw [h1, h2, settleXp_done 0 3 225 (by norm_num)]

theorem claim3_witness :
    (1:ℕ) ≤ 100 ∧ (settleXp 250 0 100).1 < (settleXp 250 0 100).2.2 :=
  ⟨by norm_num, claim3.1 250 0 100 (by norm_num)⟩

/-- C2: mass-ratio gating — on well-formed states, every absorption-family
event of a tick has the predator strictly above 1.15 times the prey's mass at
the moment of the check, and a pair exactly at the 1.15 boundary (outside the
ungated virus-eats-ejected branch) leaves the collision state unchanged. -/
theorem claim2 (env : Env) (s : List Entity) (hwf : WellFormed s) :
    (∀ ev ∈ (runPhysicsTick env s).events, ev.predE.mass > ev.preyE.mass * 1.15) ∧
      ∀ (i j : ℕ) (st : CollState),
        0 ≤ (st.arr.getD j default).mass →
        (st.arr.getD i default).mass = (st.arr.getD j default).mass * 1.15 →
        ¬((st.arr.getD i default).ty = .virus ∧ (st.arr.getD j default).ty = .ejected) →
        pairStep env i st j = st := by
  refine ⟨fun ev hev => ((tick_events_facts env s hwf).1 ev hev).2.2.1, ?_⟩
  intro i j st h1 h2 h3
  exact pairStep_boundary env i j st h1 h2 h3

theorem claim2_witness :
    WellFormed W1 ∧
      ((∀ ev ∈ (runPhysicsTick env0 W1).events, ev.predE.mass > ev.preyE.mass * 1.15) ∧
        ∀ (i j : ℕ) (st : CollState),
          0 ≤ (st.arr.getD j default).mass →
          (st.arr.getD i default).mass = (st.arr.getD j default).mass * 1.15 →
          ¬((st.arr.getD i default).ty = .virus ∧ (st.arr.getD j default).ty = .ejected) →
          pairStep env0 i st j = st) :=
  ⟨W1_wf, claim2 env0 W1 W1_wf⟩

/-- C7: on well-formed states, an event of a tick whose predator and prey are
both player-owned can only be a merge, which requires both merge-protection
timers to be exactly zero; the merge credits exactly the prey's mass.  Sibling
cells with nonzero protection are therefore never removed by the absorption
branch. -/
theorem claim7 (env : Env) (s : List Entity) (hwf : WellFormed s) :
    ∀ ev ∈ (runPhysicsTick env s).events,
      isPlayerEnt ev.predE = true → isPlayerEnt ev.preyE = true →
        ev.kind = .merge ∧ ev.predE.mergeTimer = some 0 ∧
          ev.preyE.mergeTimer = some 0 ∧ ev.gain = ev.preyE.mass := by
  intro ev hev hp hq
  have h := (tick_events_facts env s hwf).1 ev hev
  have hm := h.2.2.2 ⟨hp, hq⟩
  refine ⟨hm.1, hm.2.1, hm.2.2, ?_⟩
  have hnb : ev.kind ≠ EvKind.burst := by
    rw [hm.1]
    simp
  exact (h.1 hnb).1

theorem claim7_witness :
    WellFormed W1 ∧
      ∀ ev ∈ (runPhysicsTick env0 W1).events,
        isPlayerEnt ev.predE = true → isPlayerEnt ev.preyE = true →
          ev.kind = .merge ∧ ev.predE.mergeTimer = some 0 ∧
            ev.preyE.mergeTimer = some 0 ∧ ev.gain = ev.preyE.mass :=
  ⟨W1_wf, claim7 env0 W1 W1_wf⟩

/-- C1 (amended): absorption efficiency is identically 1 — for every non-burst
event of a tick on a well-formed state, the predator gains exactly the prey's
recorded mass (no class multiplier is applied by the engine), the gain is
positive, each prey index is recorded dead at most once, and every event's
prey is in the tick's removal set (no double counting). -/
theorem claim1 (env : Env) (s : List Entity) (hwf : WellFormed s) :
    (∀ ev ∈ (runPhysicsTick env s).events, ev.kind ≠ .burst →
        ev.gain = ev.preyE.mass ∧ ev.predAfter = ev.predE.mass + ev.gain ∧ 0 < ev.gain) ∧
      ((runPhysicsTick env s).events.map fun ev => ev.prey).Nodup ∧
      (∀ ev ∈ (runPhysicsTick env s).events, ev.prey ∈ (runPhysicsTick env s).dead) := by
  have h := tick_events_facts env s hwf
  refine ⟨?_, h.2.1, h.2.2⟩
  intro ev hev hnb
  have he := h.1 ev hev
  obtain ⟨hg, hpa⟩ := he.1 hnb
  refine ⟨hg, hpa, ?_⟩
  rw [hg]
  exact he.2.1

theorem claim1_witness :
    WellFormed W1 ∧
      ((∀ ev ∈ (runPhysicsTick env0 W1).events, ev.kind ≠ .burst →
          ev.gain = ev.preyE.mass ∧ ev.predAfter = ev.predE.mass + ev.gain ∧ 0 < ev.gain) ∧
        ((runPhysicsTick env0 W1).events.map fun ev => ev.prey).Nodup ∧
        (∀ ev ∈ (runPhysicsTick env0 W1).events,
          ev.prey ∈ (runPhysicsTick env0 W1).dead)) :=
  ⟨W1_wf, claim1 env0 W1 W1_wf⟩

/-- C4 (amended): radius is recomputed only in the movement loop, and from the
pre-decay mass — after the movement phase a moved entity satisfies
radius = sqrt(previous mass) * 4 while its mass has already decayed by factor
0.99999, and food and virus entities never get radius or mass recomputed at
all (their radius can stay desynchronized from sqrt(mass) * 4 forever). -/
theorem claim4 (env : Env) (pIdx : Option ℕ) (s : List Entity) (j : ℕ)
    (hj : j < s.length) :
    (¬((s.getD j default).ty = .food ∨ (s.getD j default).ty = .virus) →
        ((movePhase env pIdx s).getD j default).radius =
            Real.sqrt (s.getD j default).mass * 4 ∧
          ((movePhase env pIdx s).getD j default).mass =
            (s.getD j default).mass * 0.99999) ∧
      (((s.getD j default).ty = .food ∨ (s.getD j default).ty = .virus) →
        ((movePhase env pIdx s).getD j default).radius = (s.getD j default).radius ∧
          ((movePhase env pIdx s).getD j default).mass = (s.getD j default).mass) := by
  have h := movePhase_moveDone env pIdx s j hj
  exact ⟨fun hn => ⟨(h.2.2 hn).2, (h.2.2 hn).1⟩, fun hy => ⟨(h.2.1 hy).2, (h.2.1 hy).1⟩⟩

theorem claim4_witness :
    0 < W1.length ∧
      ((¬((W1.getD 0 default).ty = .food ∨ (W1.getD 0 default).ty = .virus) →
          ((movePhase env0 none W1).getD 0 default).radius =
              Real.sqrt (W1.getD 0 default).mass * 4 ∧
            ((movePhase env0 none W1).getD 0 default).mass =
              (W1.getD 0 default).mass * 0.99999) ∧
        (((W1.getD 0 default).ty = .food ∨ (W1.getD 0 default).ty = .virus) →
          ((movePhase env0 none W1).getD 0 default).radius = (W1.getD 0 default).radius ∧
            ((movePhase env0 none W1).getD 0 default).mass = (W1.getD 0 default).mass)) :=
  ⟨by norm_num [W1], claim4 env0 none W1 0 (by norm_num [W1])⟩

/-- C9 (amended): biome rectangles have no effect in the physics tick — two AI
entities with equal mass evolve to equal mass and equal radius through the
movement phase regardless of where they sit relative to any biome. -/
theorem claim9 (env : Env) (pIdx : Option ℕ) (s : List Entity) (i j : ℕ)
    (hi : i < s.length) (hj : j < s.length)
    (hti : (s.getD i default).ty = .ai) (htj : (s.getD j default).ty = .ai)
    (hm : (s.getD i default).mass = (s.getD j default).mass) :
    ((movePhase env pIdx s).getD i default).mass =
        ((movePhase env pIdx s).getD j default).mass ∧
      ((movePhase env pIdx s).getD i default).radius =
        ((movePhase env pIdx s).getD j default).radius := by
  have hie := (movePhase_moveDone env pIdx s i hi).2.2 (by rw [hti]; simp)
  have hje := (movePhase_moveDone env pIdx s j hj).2.2 (by rw [htj]; simp)
  constructor
  · rw [hie.1, hje.1, hm]
  · rw [hie.2, hje.2, hm]

theorem claim9_witness :
    ((W6.getD 0 default).ty = .ai ∧ (W6.getD 1 default).ty = .ai ∧
        (W6.getD 0 default).mass = (W6.getD 1 default).mass) ∧
      (((movePhase env0 none W6).getD 0 default).mass =
          ((movePhase env0 none W6).getD 1 default).mass ∧
        ((movePhase env0 none W6).getD 0 default).radius =
          ((movePhase env0 none W6).getD 1 default).radius) :=
  ⟨⟨rfl, rfl, rfl⟩,
    claim9 env0 none W6 0 1 (by norm_num [W6]) (by norm_num [W6]) rfl rfl rfl⟩

/-- C9 counterexample input: one AI inside the Toxic Mire rectangle and one of
equal mass outside every biome end the movement phase with identical mass —
the biome table is only handed to the renderers, so the claimed mass drain or
gain never happens. -/
theorem claim9_counterexample :
    (⟨"Toxic Mire", 500, 500, 2500, 2500⟩ : Biome) ∈ biomes ∧
      inBiome ⟨"Toxic Mire", 500, 500, 2500, 2500⟩ aiIn ∧
      (∀ b ∈ biomes, ¬inBiome b aiOut) ∧
      aiIn.mass = aiOut.mass ∧
      ((movePhase env0 none W6).getD 0 default).mass =
        ((movePhase env0 none W6).getD 1 default).mass := by
  refine ⟨by simp [biomes], by norm_num [inBiome, aiIn], ?_, rfl, ?_⟩
  · intro b hb
    simp only [biomes, List.mem_cons, List.not_mem_nil, or_false] at hb
    rcases hb with h | h | h <;> subst h <;> norm_num [inBiome, aiOut]
  · have hie := (movePhase_moveDone env0 none W6 0 (by norm_num [W6])).2.2
      (by simp [W6, aiIn])
    have hje := (movePhase_moveDone env0 none W6 1 (by norm_num [W6])).2.2
      (by simp [W6, aiOut])
    rw [hie.1, hje.1]
    show (W6.getD 0 default).mass * 0.99999 = (W6.getD 1 default).mass * 0.99999
    rfl

/-- C5 (amended): on a well-formed state whose entities all sit inside the
world bounds, and with the random stream ranging in [0, 1], every food and AI
entity of the tick result is inside the world bounds — food is either static
or respawned at a random in-bounds position, and AI cells are clamped by the
movement loop.  (Player cells and freshly spawned virus offspring are excluded:
they can leave the bounds.) -/
theorem claim5 (env : Env) (s : List Entity) (hwf : WellFormed s)
    (hin : ∀ e ∈ s, inBounds e) (hrng : ∀ t, 0 ≤ env.rng t ∧ env.rng t ≤ 1) :
    ∀ e ∈ (runPhysicsTick env s).entities, e.ty = .food ∨ e.ty = .ai → inBounds e := by
  intro e he hty
  rw [runPhysicsTick_eq] at he
  by_cases hearly : (s.filter fun x => isPlayerEnt x).isEmpty ∧ env.playing
  · rw [if_pos hearly] at he
    exact hin e he
  · rw [if_neg hearly] at he
    have hml : (movePhase env (s.findIdx? fun x => isPlayerEnt x) s).length = s.length :=
      movePhase_length env _ s
    obtain ⟨hclen, hcx, hca⟩ := collPhase_shape env
      (buildGrid (movePhase env (s.findIdx? fun x => isPlayerEnt x) s))
      (movePhase env (s.findIdx? fun x => isPlayerEnt x) s)
    have hclen2 : (tickColl env s).arr.length =
        (movePhase env (s.findIdx? fun x => isPlayerEnt x) s).length := hclen
    have hcx2 : ∀ k,
        exceptMass ((movePhase env (s.findIdx? fun x => isPlayerEnt x) s).getD k default)
          ((tickColl env s).arr.getD k default) := hcx
    have hca2 : ∀ e2 ∈ (tickColl env s).adds, e2.ty = .virus ∨ e2.ty = .player := hca
    have hsurv : ∀ k, k < (tickColl env s).arr.length →
        (tickColl env s).arr.getD k default = e → inBounds e := by
      intro k hk hke
      have hks : k < s.length := by
        rw [hclen2, hml] at hk
        exact hk
      obtain ⟨_, hmty, _, _, _, _, _, hmx, hmy, _, _, _⟩ := hcx2 k
      have hident := movePhase_identEq env (s.findIdx? fun x => isPlayerEnt x) s k
      have htyc : (s.getD k default).ty = e.ty := by
        rw [hident.2.1, hmty, hke]
      have hwfk := hwf _ (getD_mem s k hks)
      have hink := hin _ (getD_mem s k hks)
      rcases hty with hfood | hai
      · have hsty : (s.getD k default).ty = .food := by
          rw [htyc, hfood]
        have hnp : isPlayerEnt (s.getD k default) = false := hwfk.2.2.2 (Or.inl hsty)
        have hstat := movePhase_staticFixed env (s.findIdx? fun x => isPlayerEnt x) s k
          (Or.inl hsty) hnp
        rw [hstat] at hmx hmy
        refine ⟨?_, ?_, ?_, ?_⟩
        · rw [← hke, ← hmx]
          exact hink.1
        · rw [← hke, ← hmx]
          exact hink.2.1
        · rw [← hke, ← hmy]
          exact hink.2.2.1
        · rw [← hke, ← hmy]
          exact hink.2.2.2
      · have hsty : (s.getD k default).ty = .ai := by
          rw [htyc, hai]
        have hnp : isPlayerEnt (s.getD k default) = false :=
          hwfk.2.2.2 (Or.inr (Or.inr hsty))
        have hnfv : ¬((s.getD k default).ty = .food ∨ (s.getD k default).ty = .virus) := by
          rw [hsty]
          simp
        have hb := movePhase_bounds env (s.findIdx? fun x => isPlayerEnt x) s k hks hnp hnfv
        refine ⟨?_, ?_, ?_, ?_⟩
        · rw [← hke, ← hmx]
          exact hb.1
        · rw [← hke, ← hmx]
          exact hb.2.1
        · rw [← hke, ← hmy]
          exact hb.2.2.1
        · rw [← hke, ← hmy]
          exact hb.2.2.2
    by_cases hrb : (tickColl env s).dead ≠ [] ∨ (tickColl env s).adds ≠ []
    · rw [if_pos hrb] at he
      rcases List.mem_append.mp he with hrem | hadds
      · obtain ⟨i, hilt, hcase⟩ :=
          removePhase_mem env (tickColl env s).dead (tickColl env s).rk
            (tickColl env s).arr e hrem
        rcases hcase with ⟨_, hei⟩ | ⟨_, _, t, hei⟩
        · exact hsurv i hilt hei.symm
        · subst hei
          refine ⟨?_, ?_, ?_, ?_⟩
          · show 0 ≤ env.rng t * MAP_SIZE
            exact mul_nonneg (hrng t).1 (by norm_num [MAP_SIZE])
          · show env.rng t * MAP_SIZE ≤ MAP_SIZE
            calc env.rng t * MAP_SIZE ≤ 1 * MAP_SIZE :=
                  mul_le_mul_of_nonneg_right (hrng t).2 (by norm_num [MAP_SIZE])
            _ = MAP_SIZE := one_mul _
          · show 0 ≤ env.rng (t + 1) * MAP_SIZE
            exact mul_nonneg (hrng (t + 1)).1 (by norm_num [MAP_SIZE])
          · show env.rng (t + 1) * MAP_SIZE ≤ MAP_SIZE
            calc env.rng (t + 1) * MAP_SIZE ≤ 1 * MAP_SIZE :=
                  mul_le_mul_of_nonneg_right (hrng (t + 1)).2 (by norm_num [MAP_SIZE])
            _ = MAP_SIZE := one_mul _
      · rcases hty with h1 | h1 <;> rcases hca2 e hadds with h2 | h2 <;>
          rw [h1] at h2 <;> exact absurd h2 (by simp)
    · rw [if_neg hrb] at he
      obtain ⟨k, hk, hke⟩ := mem_getD _ e he
      exact hsurv k hk hke

theorem claim5_witness :
    (WellFormed W1 ∧ (∀ e ∈ W1, inBounds e) ∧
        (∀ t : ℕ, 0 ≤ env0.rng t ∧ env0.rng t ≤ 1)) ∧
      ∀ e ∈ (runPhysicsTick env0 W1).entities, e.ty = .food ∨ e.ty = .ai → inBounds e := by
  have hin : ∀ e ∈ W1, inBounds e := by
    intro e he
    simp only [W1, List.mem_cons, List.not_mem_nil, or_false] at he
    rcases he with h | h <;> subst h <;> exact ⟨by norm_num [entP, entF],
      by norm_num [entP, entF, MAP_SIZE], by norm_num [entP, entF],
      by norm_num [entP, entF, MAP_SIZE]⟩
  have hrng : ∀ t : ℕ, 0 ≤ env0.rng t ∧ env0.rng t ≤ 1 := by
    intro t
    constructor <;> norm_num [env0]
  exact ⟨⟨W1_wf, hin, hrng⟩, claim5 env0 W1 W1_wf hin hrng⟩

/- Persistence of unconsumed ejected mass. -/

theorem tick_ejected_step (env : Env) (e : Entity) (he : e.ty = .ejected) :
    ∃ e2, (runPhysicsTick env [e]).entities = [e2] ∧ e2.ty = .ejected ∧ e2.id = e.id := by
  have hlen : (movePhase env ([e].findIdx? fun x => isPlayerEnt x) [e]).length = 1 :=
    movePhase_length env _ [e]
  obtain ⟨a, ha⟩ := List.length_eq_one.mp hlen
  have hident := movePhase_identEq env ([e].findIdx? fun x => isPlayerEnt x) [e] 0
  rw [ha] at hident
  have hid : e.id = a.id := hident.1
  have hty : e.ty = a.ty := hident.2.1
  have htya : a.ty = .ejected := by
    rw [← hty]
    exact he
  have h1 : tickColl env [e] = collStep env (buildGrid [a]) ⟨[a], [], [], 0, 0, 0, []⟩ 0 := by
    simp only [tickColl, collPhase]
    rw [ha, List.length_singleton, show List.range 1 = [0] by rfl]
    rfl
  have h2 : collStep env (buildGrid [a]) ⟨[a], [], [], 0, 0, 0, []⟩ 0 =
      if isPlayerEnt a = true then ⟨[a], [], [], 0, 0 + a.mass, 0, []⟩
      else ⟨[a], [], [], 0, 0, 0, []⟩ := by
    have hnd : (0:ℕ) ∉ (⟨[a], [], [], 0, 0, 0, []⟩ : CollState).dead := List.not_mem_nil 0
    have hc : ((⟨[a], [], [], 0, 0, 0, []⟩ : CollState).arr.getD 0 default).ty ≠ .player ∧
        ((⟨[a], [], [], 0, 0, 0, []⟩ : CollState).arr.getD 0 default).ty ≠ .ai ∧
        ((⟨[a], [], [], 0, 0, 0, []⟩ : CollState).arr.getD 0 default).ty ≠ .virus := by
      refine ⟨?_, ?_, ?_⟩ <;>
        · show a.ty ≠ _
          rw [htya]
          simp
    have hga : ([a] : List Entity).getD 0 default = a := rfl
    simp only [collStep, if_neg hnd, if_pos hc]
    rw [hga]
  have h3 : (tickColl env [e]).arr = [a] ∧ (tickColl env [e]).dead = [] ∧
      (tickColl env [e]).adds = [] := by
    rw [h1, h2]
    split <;> exact ⟨rfl, rfl, rfl⟩
  rw [runPhysicsTick_eq]
  split
  · exact ⟨e, rfl, he, rfl⟩
  · refine ⟨a, ?_, htya, hid.symm⟩
    show (if (tickColl env [e]).dead ≠ [] ∨ (tickColl env [e]).adds ≠ [] then
        (removePhase env (tickColl env [e]).dead (tickColl env [e]).rk
            (tickColl env [e]).arr).1 ++ (tickColl env [e]).adds
      else (tickColl env [e]).arr) = [a]
    rw [if_neg (by simp [h3.2.1, h3.2.2])]
    exact h3.1

theorem ejected_persists (envs : ℕ → Env) (e : Entity) (he : e.ty = .ejected) (n : ℕ) :
    ∃ e2, tickIter envs n [e] = [e2] ∧ e2.ty = .ejected ∧ e2.id = e.id := by
  induction n with
  | zero => exact ⟨e, rfl, he, rfl⟩
  | succ k ih =>
    obtain ⟨e2, hlist, hty, hid⟩ := ih
    show ∃ e3, (runPhysicsTick (envs k) (tickIter envs k [e])).entities = [e3] ∧
      e3.ty = .ejected ∧ e3.id = e.id
    rw [hlist]
    obtain ⟨e3, h1, h2, h3⟩ := tick_ejected_step (envs k) e2 hty
    exact ⟨e3, h1, h2, h3.trans hid⟩

/-- C8 (amended): ejected mass has no time-to-live — the entity record carries
no TTL field and the physics tick never despawns an unconsumed ejected entity:
a world holding one ejected pellet still holds exactly one ejected pellet
with the same id after every number of ticks, under any environments. -/
theorem claim8 (envs : ℕ → Env) (e : Entity) (he : e.ty = .ejected) :
    ∀ n : ℕ, ∃ e2, tickIter envs n [e] = [e2] ∧ e2.ty = .ejected ∧ e2.id = e.id :=
  fun n => ejected_persists envs e he n

theorem claim8_witness :
    ejW.ty = .ejected ∧
      ∀ n : ℕ, ∃ e2, tickIter (fun _ => env0) n [ejW] = [e2] ∧
        e2.ty = .ejected ∧ e2.id = ejW.id :=
  ⟨rfl, claim8 (fun _ => env0) ejW rfl⟩

/-- C8 counterexample input: the spec schedules an unconsumed ejected pellet to
be despawned once its time-to-live elapses, but after 1801 ticks (more than 30
seconds at 60 ticks per second) the pellet is still present and still typed
ejected — it is never released. -/
theorem claim8_counterexample :
    ∃ e2, tickIter (fun _ => env0) 1801 [ejW] = [e2] ∧ e2.ty = .ejected ∧
      e2.id = "ej" := by
  obtain ⟨e2, h1, h2, h3⟩ := ejected_persists (fun _ => env0) ejW rfl 1801
  exact ⟨e2, h1, h2, h3⟩

/-- C1 counterexample input: a controlled-actor cell of the Predator class
(absorption stat 1.6 in CLASS_DATA) absorbing an overlapped AI cell is
credited exactly the prey's mass — the recorded gain is entB.mass, not
entB.mass * 1.6, so the class absorption multiplier of the claim is never
applied by the engine. -/
theorem claim1_counterexample :
    (pairStep env0 0 stC 1).events =
        [⟨.absorb, 0, 1, entA, entB, entB.mass, entA.mass + entB.mass⟩] ∧
      entA.cls = some CellClass.predator ∧
      (classStats CellClass.predator).absorption = 1.6 ∧
      entB.mass * (classStats CellClass.predator).absorption ≠ entB.mass := by
  refine ⟨?_, rfl, rfl, by norm_num [entB, classStats]⟩
  norm_num [pairStep, stC, entA, entB, isPlayerEnt, List.getD]
  simp

/-- C4 counterexample input: a world holding one food pellet (mass 1, radius 3
as the world seeds them) passes through a whole physics tick unchanged, and at
the tick boundary its radius 3 differs from sqrt(mass) * 4 = 4 — the radius of
food is never recomputed, so radius == f(mass) fails at an observed boundary. -/
theorem claim4_counterexample :
    (runPhysicsTick env0 W4).entities = W4 ∧ entF.ty = .food ∧ entF.radius = 3 ∧
      entF.mass = 1 ∧ entF.radius ≠ Real.sqrt entF.mass * 4 := by
  have hmW4 : movePhase env0 (W4.findIdx? fun e => isPlayerEnt e) W4 = W4 := by
    unfold movePhase
    rw [show W4.length = 1 by rfl, show List.range 1 = [0] by rfl, List.foldl_cons,
      List.foldl_nil]
    simp [moveStep, W4, entF, List.getD]
  have htc : tickColl env0 W4 = ⟨W4, [], [], 0, 0, 0, []⟩ := by
    simp only [tickColl, collPhase]
    rw [hmW4, show W4.length = 1 by rfl, show List.range 1 = [0] by rfl, List.foldl_cons,
      List.foldl_nil]
    simp [collStep, W4, entF, isPlayerEnt, List.getD]
  refine ⟨?_, rfl, rfl, rfl, by norm_num [entF, Real.sqrt_one]⟩
  rw [runPhysicsTick_eq, if_neg (by simp [env0])]
  show (if (tickColl env0 W4).dead ≠ [] ∨ (tickColl env0 W4).adds ≠ [] then
      (removePhase env0 (tickColl env0 W4).dead (tickColl env0 W4).rk
          (tickColl env0 W4).arr).1 ++ (tickColl env0 W4).adds
    else (tickColl env0 W4).arr) = W4
  rw [htc]
  simp

/- Evaluation of one tick on the two bordering sibling cells. -/

theorem sqrt_hundred : Real.sqrt 100 = 10 := by
  rw [show (100:ℝ) = 10 ^ 2 by norm_num, Real.sqrt_sq (by norm_num : (0:ℝ) ≤ 10)]

theorem sqrt_fourtwenty : Real.sqrt (1681 / 4) = 41 / 2 := by
  rw [show (1681 / 4 : ℝ) = (41 / 2) ^ 2 by norm_num,
    Real.sqrt_sq (by norm_num : (0:ℝ) ≤ 41 / 2)]

theorem sqrt_sixteeneightyone : Real.sqrt 1681 = 41 := by
  rw [show (1681:ℝ) = 41 ^ 2 by norm_num, Real.sqrt_sq (by norm_num : (0:ℝ) ≤ 41)]

theorem sqrt_four : Real.sqrt 4 = 2 := by
  rw [show (4:ℝ) = 2 ^ 2 by norm_num, Real.sqrt_sq (by norm_num : (0:ℝ) ≤ 2)]

theorem W5_move0 (pIdx : Option ℕ) : moveStep env0 pIdx W5 0 = [c0d, c1m] := by
  norm_num [moveStep, moveBranch, siblingStep, W5, c0, c1, c0d, c1m, env0, isPlayerEnt,
    jsOr, List.getD_cons_zero, List.getD_cons_succ, sqrt_hundred, Real.sqrt_zero,
    show List.range 2 = [0, 1] by rfl]
  simp [List.set_cons_zero, List.set_cons_succ]
  norm_num [sqrt_hundred, MAP_SIZE]

theorem W5_move1 (pIdx : Option ℕ) : moveStep env0 pIdx [c0d, c1m] 1 = [c0f, c1f] := by
  norm_num [moveStep, moveBranch, siblingStep, c0d, c1m, c0f, c1f, env0, isPlayerEnt,
    jsOr, List.getD_cons_zero, List.getD_cons_succ, sqrt_hundred, sqrt_fourtwenty,
    sqrt_sixteeneightyone, sqrt_four, Real.sqrt_zero, show List.range 2 = [0, 1] by rfl]
  simp [List.set_cons_zero, List.set_cons_succ]
  norm_num [sqrt_hundred, MAP_SIZE]

theorem defaultEnt_ty : (default : Entity).ty = EType.hazard := rfl

theorem defaultEnt_x : (default : Entity).x = 0 := rfl

theorem defaultEnt_y : (default : Entity).y = 0 := rfl

theorem W5_pair0 (st : CollState) (harr : st.arr = [c0f, c1f]) (hdead : st.dead = [])
    (j : ℕ) : pairStep env0 0 st j = st := by
  by_cases hij : 0 = j ∨ j ∈ st.dead
  · simp [pairStep, hij]
  · simp only [pairStep, harr]
    rw [if_neg hij]
    by_cases hj1 : j = 1
    · subst hj1
      rw [if_neg (by simp [List.getD_cons_zero, c0f]),
        if_neg (by norm_num [List.getD_cons_zero, List.getD_cons_succ, c0f, c1f])]
    · have h0 : ¬(0 = j) := fun h => hij (Or.inl h)
      have hj2 : 2 ≤ j := by omega
      rw [getD_default_of_le [c0f, c1f] j (by simpa using hj2)]
      rw [if_neg (by simp [List.getD_cons_zero, c0f]),
        if_neg (by norm_num [List.getD_cons_zero, c0f, defaultEnt_x, defaultEnt_y])]

theorem W5_pair1 (st : CollState) (harr : st.arr = [c0f, c1f]) (hdead : st.dead = [])
    (j : ℕ) : pairStep env0 1 st j = st := by
  by_cases hij : 1 = j ∨ j ∈ st.dead
  · simp [pairStep, hij]
  · simp only [pairStep, harr]
    rw [if_neg hij]
    by_cases hj0 : j = 0
    · subst hj0
      rw [if_neg (by simp [List.getD_cons_zero, List.getD_cons_succ, c1f]),
        if_neg (by norm_num [List.getD_cons_zero, List.getD_cons_succ, c0f, c1f])]
    · have h0 : ¬(1 = j) := fun h => hij (Or.inl h)
      have hj2 : 2 ≤ j := by omega
      rw [getD_default_of_le [c0f, c1f] j (by simpa using hj2)]
      rw [if_neg (by simp [List.getD_cons_zero, List.getD_cons_succ, c1f]),
        if_neg (by norm_num [List.getD_cons_zero, List.getD_cons_succ, c1f,
          defaultEnt_x, defaultEnt_y])]

theorem W5_fold (i : ℕ)
    (hp : ∀ st2 : CollState, st2.arr = [c0f, c1f] → st2.dead = [] →
      ∀ j, pairStep env0 i st2 j = st2) :
    ∀ (l : List ℕ) (st : CollState), st.arr = [c0f, c1f] → st.dead = [] →
      l.foldl (pairStep env0 i) st = st := by
  intro l
  induction l with
  | nil =>
    intro st _ _
    rfl
  | cons x t ih =>
    intro st h1 h2
    rw [List.foldl_cons, hp st h1 h2 x]
    exact ih st h1 h2

theorem W5_collStep (g : Grid) (st : CollState) (i : ℕ) (hi : i = 0 ∨ i = 1)
    (h1 : st.arr = [c0f, c1f]) (h2 : st.dead = []) :
    collStep env0 g st i =
      if isPlayerEnt (st.arr.getD i default) = true then
        { st with pms := st.pms + (st.arr.getD i default).mass }
      else st := by
  have hsp : ∀ st2 : CollState, st2.arr = [c0f, c1f] → st2.dead = [] →
      ∀ j, pairStep env0 i st2 j = st2 := by
    rcases hi with h | h <;> subst h
    · exact W5_pair0
    · exact W5_pair1
  have hty : ¬((st.arr.getD i default).ty ≠ EType.player ∧
      (st.arr.getD i default).ty ≠ EType.ai ∧ (st.arr.getD i default).ty ≠ EType.virus) := by
    rw [h1]
    rcases hi with h | h <;> subst h <;>
      simp [List.getD_cons_zero, List.getD_cons_succ, c0f, c1f]
  simp only [collStep]
  rw [if_neg (show ¬i ∈ st.dead by rw [h2]; exact List.not_mem_nil i), if_neg hty]
  apply W5_fold i hsp
  · split <;> exact h1
  · split <;> exact h2

theorem W5_coll (g : Grid) :
    (collPhase env0 g [c0f, c1f]).arr = [c0f, c1f] ∧
      (collPhase env0 g [c0f, c1f]).dead = [] ∧ (collPhase env0 g [c0f, c1f]).adds = [] := by
  have step : ∀ (st : CollState) (i : ℕ), i = 0 ∨ i = 1 → st.arr = [c0f, c1f] →
      st.dead = [] → st.adds = [] →
      (collStep env0 g st i).arr = [c0f, c1f] ∧ (collStep env0 g st i).dead = [] ∧
        (collStep env0 g st i).adds = [] := by
    intro st i hi h1 h2 h3
    rw [W5_collStep g st i hi h1 h2]
    split <;> exact ⟨h1, h2, h3⟩
  simp only [collPhase]
  rw [show ([c0f, c1f] : List Entity).length = 2 by rfl, show List.range 2 = [0, 1] by rfl,
    List.foldl_cons, List.foldl_cons, List.foldl_nil]
  have t1 := step ⟨[c0f, c1f], [], [], 0, 0, 0, []⟩ 0 (Or.inl rfl) rfl rfl rfl
  exact step _ 1 (Or.inr rfl) t1.1 t1.2.1 t1.2.2

theorem W5_tick : (runPhysicsTick env0 W5).entities = [c0f, c1f] := by
  have hmove : movePhase env0 (W5.findIdx? fun e => isPlayerEnt e) W5 = [c0f, c1f] := by
    unfold movePhase
    rw [show W5.length = 2 by rfl, show List.range 2 = [0, 1] by rfl, List.foldl_cons,
      List.foldl_cons, List.foldl_nil, W5_move0, W5_move1]
  have h3 : (tickColl env0 W5).arr = [c0f, c1f] ∧ (tickColl env0 W5).dead = [] ∧
      (tickColl env0 W5).adds = [] := by
    have h : tickColl env0 W5 = collPhase env0 (buildGrid [c0f, c1f]) [c0f, c1f] := by
      simp only [tickColl]
      rw [hmove]
    rw [h]
    exact W5_coll (buildGrid [c0f, c1f])
  rw [runPhysicsTick_eq, if_neg (by simp [env0])]
  show (if (tickColl env0 W5).dead ≠ [] ∨ (tickColl env0 W5).adds ≠ [] then
      (removePhase env0 (tickColl env0 W5).dead (tickColl env0 W5).rk
          (tickColl env0 W5).arr).1 ++ (tickColl env0 W5).adds
    else (tickColl env0 W5).arr) = [c0f, c1f]
  rw [if_neg (by simp [h3.2.1, h3.2.2])]
  exact h3.1

/-- C5 counterexample input: two overlapping sibling player cells at the left
world border, both inside the bounds before the tick.  During the tick the
second cell's sibling soft-push moves the already-clamped first cell to
x = -8.925, and nothing re-clamps it: the tick result holds an entity outside
the world bounds. -/
theorem claim5_counterexample :
    (∀ e ∈ W5, inBounds e) ∧
      ((runPhysicsTick env0 W5).entities.getD 0 default).x = -8.925 ∧
      ((runPhysicsTick env0 W5).entities.getD 0 default).x < 0 := by
  refine ⟨?_, ?_, ?_⟩
  · intro e he
    simp only [W5, List.mem_cons, List.not_mem_nil, or_false] at he
    rcases he with h | h <;> subst h <;>
      exact ⟨by norm_num [c0, c1], by norm_num [c0, c1, MAP_SIZE], by norm_num [c0, c1],
        by norm_num [c0, c1, MAP_SIZE]⟩
  · rw [W5_tick]
    norm_num [List.getD_cons_zero, c0f]
  · rw [W5_tick]
    norm_num [List.getD_cons_zero, c0f]

end

end Osmos
